import Mathlib

/-!
# Verification of the dyros plan validator (`scripts/validator.py`)

This file gives a shallow embedding of the plan validation and sanitization
engine of the dyros repository and proves properties of it.

Modelling conventions:
* Python/JSON values are modelled by the inductive type `JValue`.  Python
  distinguishes `int`, `float`, `bool` and the float `nan`; all four get
  their own representation (`bool` is a subclass of `int` in Python, which
  matters for `isinstance(x, int)` checks and is modelled explicitly where
  those checks occur).  Numbers are represented by rationals.
* Python dictionaries are association lists (`Kvs`); key update rewrites the
  binding in place, mirroring `dict.__setitem__` on an existing key.
* Python string operations (`strip`, `lower`, `upper`, `replace`,
  `isdigit`, `startswith`, slicing) are implemented on the character list
  of the string.
* The functions keep the names of the Python source where possible
  (leading underscores dropped): `is_number`, `as_list6`, `clamp`,
  `norm_frame`, `norm_subtask`, `try_parse_point_id`, `validate_plan`.
* Python exceptions are not modelled: every embedded function is total.
  In particular `str.isdigit`'s acceptance of non-ASCII digit characters
  (where `int` then raises `ValueError`) and `float`'s `OverflowError` on
  huge integers are collapsed to total behaviour, so the embedding is
  silent about inputs on which the Python code itself raises.
-/

/-! ## Python string primitives -/

/-- Characters stripped by Python `str.strip()` (ASCII whitespace). -/
def pySpace (c : Char) : Bool :=
  c == ' ' || c == '\t' || c == '\n' || c == '\r' || c == '\x0b' || c == '\x0c'

/-- `str.strip()` on a character list. -/
def stripChars (l : List Char) : List Char :=
  ((l.dropWhile pySpace).reverse.dropWhile pySpace).reverse

/-- Python `s.strip()`. -/
def pyStrip (s : String) : String := String.mk (stripChars s.data)

/-- Python `s.lower()` (ASCII case mapping). -/
def pyLower (s : String) : String := String.mk (s.data.map Char.toLower)

/-- Python `s.upper()` (ASCII case mapping). -/
def pyUpper (s : String) : String := String.mk (s.data.map Char.toUpper)

/-- Python `s.replace(" ", "_")`. -/
def pyUnderscoreSpaces (s : String) : String :=
  String.mk (s.data.map (fun c => if c = ' ' then '_' else c))

/-- Numeric value of a decimal digit character. -/
def digitVal (c : Char) : ℕ := c.toNat - '0'.toNat

/-- Value of a decimal digit string (the Python `int(s)` on a digit string). -/
def charsToNat (l : List Char) : ℕ := l.foldl (fun a c => 10 * a + digitVal c) 0

/-- Python `s.isdigit()` (restricted to ASCII decimal digits). -/
def pyIsDigitStr (l : List Char) : Bool := !l.isEmpty && l.all Char.isDigit

/-- Python `int(s) if s.isdigit() else None`, restricted to ASCII decimal
digits.  Python's `str.isdigit` also accepts other Unicode digit characters
(such as the superscript two) on which `int` then raises `ValueError`; that
exception path of `_try_parse_point_id` is not modelled — here such strings
simply fail to parse. -/
def pyParseNat (s : String) : Option ℕ :=
  if pyIsDigitStr s.data then some (charsToNat s.data) else none

/-- Python `s.startswith(pre)`. -/
def pyStartsWith (s pre : String) : Bool := pre.data.isPrefixOf s.data

/-- Python `s[n:]` (drop the first `n` characters). -/
def pyDropChars (s : String) (n : ℕ) : String := String.mk (s.data.drop n)

/-- Python `len(s)`. -/
def pyLen (s : String) : ℕ := s.data.length

/-- Decimal digits of a natural number (fuel-based so that it reduces). -/
def natDigitsAux : ℕ → ℕ → List Char → List Char
  | 0, _, acc => acc
  | fuel+1, n, acc =>
    let d := Char.ofNat (48 + n % 10)
    if n < 10 then d :: acc else natDigitsAux fuel (n / 10) (d :: acc)

/-- Decimal representation of a natural number. -/
def natToString (n : ℕ) : String := String.mk (natDigitsAux (n + 1) n [])

/-- Decimal representation of an integer. -/
def intToString : ℤ → String
  | .ofNat m => natToString m
  | .negSucc m => "-" ++ natToString (m + 1)

/-- Comma separated rendering of a list of naturals, Python-list style. -/
def natListToString (l : List ℕ) : String :=
  "[" ++ String.intercalate ", " (l.map natToString) ++ "]"

/-! ## JSON-like values and dictionaries -/

/-- A Python/JSON structured value.  `bool`, `int`, `float` and the float
`nan` are separate because the validator distinguishes them
(`isinstance(x, bool)`, `isinstance(x, int)`, `math.isnan`). -/
inductive JValue where
  | null
  | bool (b : Bool)
  | int (n : ℤ)
  | float (q : ℚ)
  | nan
  | str (s : String)
  | arr (elems : List JValue)
  | obj (entries : List (String × JValue))

/-- A Python dict with string keys. -/
abbrev Kvs := List (String × JValue)

/-- Python `d.get(k)` (`None` when the key is absent). -/
def getKv? (kvs : Kvs) (k : String) : Option JValue := kvs.lookup k

/-- Python `d.get(k)` collapsing the absent case to `null`. -/
def getKv (kvs : Kvs) (k : String) : JValue := (kvs.lookup k).getD JValue.null

/-- Python `k in d`. -/
def hasKv (kvs : Kvs) (k : String) : Bool := (kvs.lookup k).isSome

/-- Python `d[k] = v`: rewrite the first binding of `k`, append if absent. -/
def setKv : Kvs → String → JValue → Kvs
  | [], k, v => [(k, v)]
  | (k', v') :: rest, k, v =>
    if k' = k then (k, v) :: rest else (k', v') :: setKv rest k v

/-! ## Issue and result types (`ValidationIssue`, `ValidationResult`) -/

structure ValidationIssue where
  level : String
  code : String
  message : String
  path : String

/-- Build a WARN issue. -/
def warnI (code message path : String) : ValidationIssue :=
  ⟨"WARN", code, message, path⟩

/-- Build an ERROR issue. -/
def errI (code message path : String) : ValidationIssue :=
  ⟨"ERROR", code, message, path⟩

structure ValidationResult where
  ok : Bool
  sanitized : Kvs
  issues : List ValidationIssue

/-- `ValidationResult.errors`. -/
def ValidationResult.errors (r : ValidationResult) : List ValidationIssue :=
  r.issues.filter (fun i => i.level == "ERROR")

/-- `ValidationResult.warnings`. -/
def ValidationResult.warnings (r : ValidationResult) : List ValidationIssue :=
  r.issues.filter (fun i => i.level == "WARN")

/-! ## Module constants of `validator.py` -/

def ALLOWED_FRAMES : List String := ["WORLD", "CONTACT", "FUNCTIONAL"]

def ALLOWED_SUBTASKS : List String :=
  ["grasp", "move_by_displacement", "move_to_pose", "rotate", "place", "release"]

def HARD_FRAME_BY_SUBTASK : List (String × String) :=
  [("grasp", "CONTACT"), ("rotate", "FUNCTIONAL")]

/-- The zero-fill subtask set of the degenerate-step policy. -/
def ZERO_FILL_SUBTASKS : List String :=
  ["move_to_pose", "place", "move_by_displacement"]

/-- The literal `1e-9` threshold of the VM rule. -/
def eps9 : ℚ := mkRat 1 1000000000

/-- The literal `1e-12` threshold of the all-zero test. -/
def eps12 : ℚ := mkRat 1 1000000000000

/-! ## Small helpers of `validator.py` -/

/-- `_is_number`: an `int` or `float`, not a `bool`, not NaN.  Total here:
Python's `math.isnan(float(x))` raises `OverflowError` for integers too
large for a float, so that crash path of `_as_list6` is not modelled — here
every integer counts as a number. -/
def is_number : JValue → Bool
  | .int _ => true
  | .float _ => true
  | _ => false

/-- Python `float(x)` on a value satisfying `is_number`. -/
def numVal : JValue → ℚ
  | .int n => (n : ℚ)
  | .float q => q
  | _ => 0

/-- `_as_list6`: exactly six numeric entries, converted to float. -/
def as_list6 : JValue → Option (List ℚ)
  | .arr xs =>
    if xs.length == 6 && xs.all is_number then some (xs.map numVal) else none
  | _ => none

/-- `_clamp`. -/
def clamp (x lo hi : ℚ) : ℚ := max lo (min hi x)

/-- `_norm_frame`: strip, uppercase, membership in `ALLOWED_FRAMES`. -/
def norm_frame : JValue → Option String
  | .str s =>
    let f := pyUpper (pyStrip s)
    if f ∈ ALLOWED_FRAMES then some f else none
  | _ => none

/-- The string normalization of `_norm_subtask`. -/
def normSubtaskStr (s : String) : String := pyUnderscoreSpaces (pyLower (pyStrip s))

/-- `_norm_subtask`: strip, lowercase, spaces to underscores. -/
def norm_subtask : JValue → Option String
  | .str s => some (normSubtaskStr s)
  | _ => none

def POINT_ID_PFXS : List String := ["contact_point_", "functional_point_", "point_"]

/-- The prefixed-string branch of `_try_parse_point_id`. -/
def parsePointIdPfx (t : String) : List String → Option ℤ
  | [] => none
  | pre :: rest =>
    if pyStartsWith t pre then
      match pyParseNat (pyDropChars t (pyLen pre)) with
      | some n => some (n : ℤ)
      | none => parsePointIdPfx t rest
    else parsePointIdPfx t rest

/-- `_try_parse_point_id`: accepts `int` (including `bool`, a Python `int`
subclass), digit strings and `contact_point_`/`functional_point_`/`point_`
prefixed digit strings. -/
def try_parse_point_id : JValue → Option ℤ
  | .null => none
  | .bool b => some (if b then 1 else 0)
  | .int n => some n
  | .str s =>
    let t := pyLower (pyStrip s)
    match pyParseNat t with
    | some n => some (n : ℤ)
    | none => parsePointIdPfx t POINT_ID_PFXS
  | _ => none

/-! ## Point index -/

/-- Per-object map from point kind (`"contact_point"`, `"functional_point"`,
`"any_point"`) to id set. -/
abbrev KindMap := List (String × List ℤ)

/-- The point index: object name (plus `"_union"`) to kind map. -/
abbrev PointIndex := List (String × KindMap)

/-- `m.get(kind, set())`. -/
def kindGet (m : KindMap) (kind : String) : List ℤ := (m.lookup kind).getD []

/-- `point_index.get(obj, {})`. -/
def idxGet (pidx : PointIndex) (obj : String) : KindMap := (pidx.lookup obj).getD []

/-- `obj in point_index`. -/
def idxHas (pidx : PointIndex) (obj : String) : Bool := (pidx.lookup obj).isSome

/-! ## The per-step checks of `validate_plan` -/

/-- Validation options of `validate_plan` (its keyword arguments). -/
structure Cfg where
  auto_fix : Bool
  strict_subtasks : Bool
  max_abs_v : ℚ
  max_abs_m : ℚ

/-- The path string `sequence[i]`. -/
def seqPath (i : ℕ) : String := "sequence[" ++ natToString i ++ "]"

/-- Subtask normalization block (lines 229–242 of `validator.py`). -/
def phase_subtask (cfg : Cfg) (p : String) (kvs : Kvs) :
    Option String × Kvs × List ValidationIssue × Bool :=
  match norm_subtask (getKv kvs "subtask") with
  | none =>
    (none, kvs, [errI "BAD_SUBTASK" "Missing/invalid 'subtask'." (p ++ ".subtask")], true)
  | some st =>
    if st ∈ ALLOWED_SUBTASKS then
      (some st, if cfg.auto_fix then setKv kvs "subtask" (.str st) else kvs, [], false)
    else if cfg.strict_subtasks then
      (some st, if cfg.auto_fix then setKv kvs "subtask" (.str st) else kvs,
       [errI "SUBTASK_NOT_ALLOWED" ("Subtask '" ++ st ++ "' not allowed.") (p ++ ".subtask")],
       true)
    else
      (some st, if cfg.auto_fix then setKv kvs "subtask" (.str st) else kvs,
       [warnI "UNKNOWN_SUBTASK"
         ("Subtask '" ++ st ++ "' not in allowed set (will continue).") (p ++ ".subtask")],
       false)

/-- Frame normalization block (lines 245–252). -/
def phase_frame (cfg : Cfg) (p : String) (kvs : Kvs) :
    Option String × Kvs × List ValidationIssue × Bool :=
  match norm_frame (getKv kvs "frame") with
  | none =>
    (none, kvs,
     [errI "BAD_FRAME" "'frame' must be one of ['CONTACT', 'FUNCTIONAL', 'WORLD']." (p ++ ".frame")],
     true)
  | some f =>
    (some f, if cfg.auto_fix then setKv kvs "frame" (.str f) else kvs, [], false)

/-- `actor_obj = step.get("actor_obj", step.get("actor", None))`. -/
def actor_obj_of (kvs : Kvs) : JValue :=
  match getKv? kvs "actor_obj" with
  | some v => v
  | none => getKv kvs "actor"

/-- `target_obj = step.get("target_obj", step.get("target", None))`. -/
def target_obj_of (kvs : Kvs) : JValue :=
  match getKv? kvs "target_obj" with
  | some v => v
  | none => getKv kvs "target"

/-- Warnings for non-string, non-null `actor_obj`/`target_obj` (lines 258–261). -/
def obj_warns (p : String) (kvs : Kvs) : List ValidationIssue :=
  (match actor_obj_of kvs with
   | .null => []
   | .str _ => []
   | _ => [warnI "BAD_ACTOR_OBJ" "'actor_obj' should be a string or null." (p ++ ".actor_obj")]) ++
  (match target_obj_of kvs with
   | .null => []
   | .str _ => []
   | _ => [warnI "BAD_TARGET_OBJ" "'target_obj' should be a string or null." (p ++ ".target_obj")])

/-- The body of the `for k in ("actor_point", "target_point")` loop
(lines 264–277): missing key warning, null passthrough, canonical-int
parse with rewrite under auto-fix. -/
def point_key_check (cfg : Cfg) (p k : String) (kvs : Kvs) :
    Kvs × List ValidationIssue × Bool :=
  match getKv? kvs k with
  | none =>
    (kvs,
     [warnI "MISSING_POINT_KEY" ("Missing '" ++ k ++ "' (allowed to be null).") (p ++ "." ++ k)],
     false)
  | some v =>
    match v, try_parse_point_id v with
    | .null, _ => (kvs, [], false)
    | _, none =>
      (kvs, [errI "POINT_NOT_INT" ("'" ++ k ++ "' must be int or null.") (p ++ "." ++ k)], true)
    | .str _, some n =>
      if cfg.auto_fix then
        (setKv kvs k (.int n),
         [warnI "POINT_PARSED"
           ("Parsed '" ++ k ++ "' string -> int (" ++ intToString n ++ ").") (p ++ "." ++ k)],
         false)
      else (kvs, [], false)
    | _, some _ => (kvs, [], false)

/-- Write a numeric list back as a JSON array of floats. -/
def jnumList (l : List ℚ) : JValue := .arr (l.map JValue.float)

/-- The clamp comprehension of lines 291–293 (applied only under auto-fix). -/
def clamp6 (auto : Bool) (bound : ℚ) (l : List ℚ) : List ℚ :=
  if auto then l.map (fun x => clamp x (-bound) bound) else l

/-- `violated = [k for k in range(6) if abs(V[k]) > 1e-9 and abs(M[k]) > 1e-9]`. -/
def violated_of (v m : List ℚ) : List ℕ :=
  (List.range 6).filter
    (fun k => decide (eps9 < |v.getD k 0|) && decide (eps9 < |m.getD k 0|))

/-- The VM exclusivity enforcement of lines 296–304: returns the (possibly
fixed) `M`, the issue, and the error contribution. -/
def vm_fix (auto : Bool) (p : String) (v m : List ℚ) :
    List ℚ × List ValidationIssue × Bool :=
  if (violated_of v m).isEmpty then (m, [], false)
  else if auto then
    ((violated_of v m).foldl (fun acc k => acc.set k 0) m,
     [warnI "VM_RULE_FIXED"
       ("Auto-fixed: zeroed M at indices " ++ natListToString (violated_of v m) ++ ".") p],
     false)
  else
    (m, [errI "VM_RULE_VIOLATION"
      ("Rule violated at indices " ++ natListToString (violated_of v m) ++ ".") p], true)

/-- The `ZERO_STEP`/`DENSE_TWIST` advisories of lines 310–315. -/
def nzCount (l : List ℚ) : ℕ := (l.filter (fun x => decide (eps9 < |x|))).length

def zero_dense_warns (p : String) (v m : List ℚ) : List ValidationIssue :=
  if nzCount v = 0 ∧ nzCount m = 0 then
    [warnI "ZERO_STEP" "V and M are all zeros (step may be redundant)." p]
  else if 2 < nzCount v then
    [warnI "DENSE_TWIST"
      ("V has " ++ natToString (nzCount v) ++ " non-zero components; prefer sparse.") p]
  else []

/-- The V/M block (lines 280–315): parse both 6-vectors, clamp under
auto-fix, enforce the VM exclusivity rule, write back, and emit the
`ZERO_STEP`/`DENSE_TWIST` advisories.  Returns the final local `V` and `M`
(used afterwards by the all-zero handling). -/
def phase_vm (cfg : Cfg) (p : String) (kvs : Kvs) :
    Option (List ℚ) × Option (List ℚ) × Kvs × List ValidationIssue × Bool :=
  let V0 := as_list6 (getKv kvs "V")
  let M0 := as_list6 (getKv kvs "M")
  let issV : List ValidationIssue :=
    if V0.isNone then [errI "BAD_V" "'V' must be a list of 6 numbers." (p ++ ".V")] else []
  let issM : List ValidationIssue :=
    if M0.isNone then [errI "BAD_M" "'M' must be a list of 6 numbers." (p ++ ".M")] else []
  match V0, M0 with
  | some v, some m =>
    let v1 := clamp6 cfg.auto_fix cfg.max_abs_v v
    let m1 := clamp6 cfg.auto_fix cfg.max_abs_m m
    let fixed := vm_fix cfg.auto_fix p v1 m1
    let m2 := fixed.1
    let kvs1 := if cfg.auto_fix then setKv (setKv kvs "V" (jnumList v1)) "M" (jnumList m2) else kvs
    (some v1, some m2, kvs1, issV ++ issM ++ fixed.2.1 ++ zero_dense_warns p v1 m2, fixed.2.2)
  | _, _ => (V0, M0, kvs, issV ++ issM, true)

/-- Hard frame rule (lines 318–326).  Note that only the step dict is
rewritten; the local `frame` of the Python code is not reassigned. -/
def phase_hard (cfg : Cfg) (p : String) (subtask frame : Option String) (kvs : Kvs) :
    Kvs × List ValidationIssue × Bool :=
  match subtask with
  | some st =>
    match HARD_FRAME_BY_SUBTASK.lookup st with
    | some required =>
      match frame with
      | some f =>
        if f = required then (kvs, [], false)
        else if cfg.auto_fix then
          (setKv kvs "frame" (.str required),
           [warnI "FRAME_HARD_FIXED"
             ("Auto-fixed frame: " ++ f ++ " -> " ++ required ++ " for '" ++ st ++ "'.")
             (p ++ ".frame")],
           false)
        else
          (kvs, [errI "FRAME_HARD_VIOLATION"
            ("Subtask '" ++ st ++ "' requires frame '" ++ required ++ "'.") (p ++ ".frame")],
           true)
      | none => (kvs, [], false)
    | none => (kvs, [], false)
  | none => (kvs, [], false)

/-- `all_zero` of lines 330–334: both local vectors present and entirely
below the `1e-12` threshold. -/
def vmAllZero (V M : Option (List ℚ)) : Bool :=
  match V, M with
  | some v, some m =>
    v.all (fun x => decide (|x| < eps12)) && m.all (fun x => decide (|x| < eps12))
  | _, _ => false

/-- The all-zero degenerate-step handling (lines 330–356), applied to the
local `V`/`M` produced by the V/M block. -/
def phase_zero (cfg : Cfg) (p : String) (subtask frame : Option String)
    (V M : Option (List ℚ)) (kvs : Kvs) : Kvs × List ValidationIssue × Bool :=
  match subtask with
  | some st =>
    if vmAllZero V M && decide (st ∈ ZERO_FILL_SUBTASKS) then
      if cfg.auto_fix then
        match frame with
        | some f =>
          if f ∈ ["FUNCTIONAL", "CONTACT", "WORLD"] then
            match V, M with
            | some v, some m =>
              (setKv (setKv kvs "V" (jnumList (v.set 2 1))) "M" (jnumList m),
               [warnI "ZERO_STEP_FILLED"
                 ("Filled all-zero step with default approach Vz=+1.0 in frame=" ++ f) p],
               false)
            | _, _ => (kvs, [], false)
          else (kvs, [], false)
        | none => (kvs, [], false)
      else
        (kvs, [errI "ZERO_STEP_NOT_ALLOWED" "All-zero V/M not allowed for this subtask." p],
         true)
    else (kvs, [], false)
  | none => (kvs, [], false)

/-- `expected_kind` derived from the local (declared, normalized) frame
(lines 364–368). -/
def expected_kind_of (frame : Option String) : Option String :=
  if frame = some "CONTACT" then some "contact_point"
  else if frame = some "FUNCTIONAL" then some "functional_point"
  else none

/-- `isinstance(pid, int)` reading of a point field value (`bool` is a
Python `int`). -/
def pidOf : Option JValue → Option ℤ
  | some (.int n) => some n
  | some (.bool b) => some (if b then 1 else 0)
  | _ => none

/-- The union-set fallback of `_check_id` (lines 395–400). -/
def check_id_union (unionC unionF : List ℤ) (ek : String) (pid : ℤ)
    (p fld f : String) : List ValidationIssue × Bool :=
  if (if ek = "contact_point" then unionC else unionF) ≠ [] ∧
      pid ∉ (if ek = "contact_point" then unionC else unionF) then
    ([errI "POINT_ID_INVALID_FOR_FRAME"
       (fld ++ "=" ++ intToString pid ++ " not valid for frame=" ++ f ++
        " (expected " ++ ek ++ ").") (p ++ "." ++ fld)],
     true)
  else ([], false)

/-- `_check_id` (lines 370–400): reads the (possibly rewritten) point field
from the step, then checks membership gated by the local `frame`. -/
def check_id (pidx : PointIndex) (unionC unionF unionA : List ℤ)
    (frame expectedKind : Option String) (p fld : String)
    (kvs : Kvs) (objName : Option String) : List ValidationIssue × Bool :=
  match pidOf (getKv? kvs fld) with
  | none => ([], false)
  | some pid =>
    if frame = some "WORLD" then
      if unionA ≠ [] ∧ pid ∉ unionA then
        ([warnI "POINT_ID_NOT_FOUND"
           (fld ++ "=" ++ intToString pid ++ " not found in any points_info id.")
           (p ++ "." ++ fld)],
         false)
      else ([], false)
    else
      match expectedKind with
      | none => ([], false)
      | some ek =>
        match objName with
        | some o =>
          if idxHas pidx o then
            if kindGet (idxGet pidx o) ek ≠ [] ∧ pid ∉ kindGet (idxGet pidx o) ek then
              ([errI "POINT_ID_INVALID_FOR_OBJECT"
                 (fld ++ "=" ++ intToString pid ++ " not in " ++ o ++ "." ++ ek ++ " ids.")
                 (p ++ "." ++ fld)],
               true)
            else ([], false)
          else check_id_union unionC unionF ek pid p fld (frame.getD "")
        | none => check_id_union unionC unionF ek pid p fld (frame.getD "")

/-- `objNameOf`: `actor_obj if isinstance(actor_obj, str) else None`. -/
def objNameOf : JValue → Option String
  | .str s => some s
  | _ => none

/-- The body of the `for i, step in enumerate(seq)` loop of `validate_plan`
(lines 221–403): returns the mutated step, the issues it appended, and its
contribution to `has_error`. -/
def process_step (cfg : Cfg) (pidx : PointIndex) (i : ℕ) (step : JValue) :
    JValue × List ValidationIssue × Bool :=
  let p := seqPath i
  match step with
  | .obj kvs0 =>
    let r1 := phase_subtask cfg p kvs0
    let subtask := r1.1
    let r2 := phase_frame cfg p r1.2.1
    let frame := r2.1
    let issO := obj_warns p r2.2.1
    let r3 := point_key_check cfg p "actor_point" r2.2.1
    let r4 := point_key_check cfg p "target_point" r3.1
    let r5 := phase_vm cfg p r4.1
    let V := r5.1
    let M := r5.2.1
    let r6 := phase_hard cfg p subtask frame r5.2.2.1
    let r7 := phase_zero cfg p subtask frame V M r6.1
    let kvs7 := r7.1
    let unionC := kindGet (idxGet pidx "_union") "contact_point"
    let unionF := kindGet (idxGet pidx "_union") "functional_point"
    let unionA := kindGet (idxGet pidx "_union") "any_point"
    let ek := expected_kind_of frame
    let rA := check_id pidx unionC unionF unionA frame ek p "actor_point" kvs7
      (objNameOf (actor_obj_of r2.2.1))
    let rB := check_id pidx unionC unionF unionA frame ek p "target_point" kvs7
      (objNameOf (target_obj_of r2.2.1))
    (.obj kvs7,
     r1.2.2.1 ++ r2.2.2.1 ++ issO ++ r3.2.1 ++ r4.2.1 ++ r5.2.2.2.1 ++ r6.2.1 ++ r7.2.1 ++
       rA.1 ++ rB.1,
     r1.2.2.2 || r2.2.2.2 || r3.2.2 || r4.2.2 || r5.2.2.2.2 || r6.2.2 || r7.2.2 ||
       rA.2 || rB.2)
  | _ => (step, [errI "STEP_NOT_OBJECT" "Each step must be an object." p], true)

/-- The top-level `task` field check (lines 199–200). -/
def taskOk (plan : Kvs) : Bool :=
  match getKv? plan "task" with
  | some (.str s) => pyStrip s ≠ ""
  | _ => false

/-- Issues of the top-level `task` check. -/
def taskIssues (plan : Kvs) : List ValidationIssue :=
  if taskOk plan then []
  else [warnI "MISSING_TASK" "Top-level 'task' is missing/invalid (recommended)." "task"]

/-- The `TOO_MANY_STEPS` advisory (lines 212–213). -/
def lenIssues (steps : List JValue) : List ValidationIssue :=
  if 8 < steps.length then
    [warnI "TOO_MANY_STEPS"
      ("Sequence has " ++ natToString steps.length ++ " steps; recommended <= 8.")
      "sequence"]
  else []

/-- `validate_plan` (lines 166–405).  `plan` is the input dict; the deep
copy of the Python code is the identity on immutable values. -/
def validate_plan (plan : Kvs) (point_index : PointIndex)
    (auto_fix strict_subtasks : Bool) (max_abs_v max_abs_m : ℚ) : ValidationResult :=
  let cfg : Cfg := ⟨auto_fix, strict_subtasks, max_abs_v, max_abs_m⟩
  let issues0 := taskIssues plan
  match getKv plan "sequence" with
  | .arr steps =>
    if steps.isEmpty then
      ⟨false, plan,
       issues0 ++ [errI "EMPTY_SEQUENCE" "Sequence must contain at least one step." "sequence"]⟩
    else
      let issues1 := lenIssues steps
      let results := steps.enum.map (fun pr => process_step cfg point_index pr.1 pr.2)
      ⟨!results.any (fun r => r.2.2),
       setKv plan "sequence" (.arr (results.map (fun r => r.1))),
       issues0 ++ issues1 ++ (results.map (fun r => r.2.1)).flatten⟩
  | _ =>
    ⟨false, plan,
     issues0 ++ [errI "NO_SEQUENCE" "Top-level 'sequence' must be a list." "sequence"]⟩

/-! ## Lemmas: error levels in issue lists -/

/-- An ERROR-level issue. -/
def isErrLvl (i : ValidationIssue) : Bool := i.level == "ERROR"

/-- Whether an issue list contains an ERROR-level entry. -/
def hasErrIssue (l : List ValidationIssue) : Bool := l.any isErrLvl

/-- The list of per-step loop results of `validate_plan`'s main loop. -/
def stepResults (cfg : Cfg) (pidx : PointIndex) (steps : List JValue) :
    List (JValue × List ValidationIssue × Bool) :=
  steps.enum.map (fun pr => process_step cfg pidx pr.1 pr.2)

/-! ## Issue code catalogs -/

/-- All issue codes `validate_plan` can emit (there is none for clamping:
clamping is silent). -/
def KNOWN_CODES : List String :=
  ["MISSING_TASK", "NO_SEQUENCE", "EMPTY_SEQUENCE", "TOO_MANY_STEPS", "STEP_NOT_OBJECT",
   "BAD_SUBTASK", "SUBTASK_NOT_ALLOWED", "UNKNOWN_SUBTASK", "BAD_FRAME",
   "BAD_ACTOR_OBJ", "BAD_TARGET_OBJ", "MISSING_POINT_KEY", "POINT_NOT_INT", "POINT_PARSED",
   "BAD_V", "BAD_M", "VM_RULE_FIXED", "VM_RULE_VIOLATION", "ZERO_STEP", "DENSE_TWIST",
   "FRAME_HARD_FIXED", "FRAME_HARD_VIOLATION", "ZERO_STEP_FILLED", "ZERO_STEP_NOT_ALLOWED",
   "POINT_ID_NOT_FOUND", "POINT_ID_INVALID_FOR_OBJECT", "POINT_ID_INVALID_FOR_FRAME"]

/-- Issue codes of the point-id membership check. -/
def POINT_ID_CODES : List String :=
  ["POINT_ID_NOT_FOUND", "POINT_ID_INVALID_FOR_OBJECT", "POINT_ID_INVALID_FOR_FRAME"]

/-! ## Concrete inputs used by counterexamples and witnesses -/

def jzeros6 : JValue :=
  .arr [.int 0, .int 0, .int 0, .int 0, .int 0, .int 0]

def jex : JValue := .arr [.int 1, .int 0, .int 0, .int 0, .int 0, .int 0]

/-- A grasp step declared in WORLD with a point id that is valid for no
object; its frame is hard-fixed to CONTACT. -/
def graspWorldStep : JValue := .obj
  [("subtask", .str "grasp"), ("frame", .str "WORLD"), ("actor_obj", .str "o"),
   ("actor_point", .int 5), ("target_point", .null), ("V", jex), ("M", jzeros6)]

def graspWorldPlan : Kvs := [("task", .str "t"), ("sequence", .arr [graspWorldStep])]

def graspWorldIdx : PointIndex :=
  [("o", [("contact_point", [0]), ("functional_point", []), ("any_point", [0])]),
   ("_union", [("contact_point", [0]), ("functional_point", []), ("any_point", [0])])]

/-- A step whose `V[0]` is `1e-10`: positive but below the `1e-9` threshold. -/
def tinyVStep : JValue := .obj
  [("subtask", .str "grasp"), ("frame", .str "CONTACT"),
   ("actor_point", .null), ("target_point", .null),
   ("V", .arr [.float (mkRat 1 10000000000), .int 0, .int 0, .int 0, .int 0, .int 0]),
   ("M", .arr [.int 1, .int 0, .int 0, .int 0, .int 0, .int 0])]

def tinyVPlan : Kvs := [("task", .str "t"), ("sequence", .arr [tinyVStep])]

/-- An all-zero `place` step whose frame is invalid. -/
def zeroPlaceBadFrameStep : JValue := .obj
  [("subtask", .str "place"), ("frame", .null),
   ("actor_point", .null), ("target_point", .null), ("V", jzeros6), ("M", jzeros6)]

def zeroPlaceBadFramePlan : Kvs :=
  [("task", .str "t"), ("sequence", .arr [zeroPlaceBadFrameStep])]

/-- A FUNCTIONAL step against an object with an empty functional-point set. -/
def emptyFunctionalStep : JValue := .obj
  [("subtask", .str "move_to_pose"), ("frame", .str "FUNCTIONAL"), ("actor_obj", .str "o"),
   ("actor_point", .int 7), ("target_point", .null), ("V", jex), ("M", jzeros6)]

def emptyFunctionalPlan : Kvs :=
  [("task", .str "t"), ("sequence", .arr [emptyFunctionalStep])]

def emptyFunctionalIdx : PointIndex := graspWorldIdx

/-- The space-to-underscore replacement of `_norm_subtask`. -/
def replUnd (c : Char) : Char := if c = ' ' then '_' else c

/-! ## The corrective-fix issue codes -/

def FIX_CODES : List String :=
  ["POINT_PARSED", "VM_RULE_FIXED", "FRAME_HARD_FIXED", "ZERO_STEP_FILLED"]

/-! ## Named stages of the per-step pipeline -/

def stepK1 (cfg : Cfg) (p : String) (kvs0 : Kvs) : Kvs := (phase_subtask cfg p kvs0).2.1

def stepSub (cfg : Cfg) (p : String) (kvs0 : Kvs) : Option String :=
  (phase_subtask cfg p kvs0).1

def stepK2 (cfg : Cfg) (p : String) (kvs0 : Kvs) : Kvs :=
  (phase_frame cfg p (stepK1 cfg p kvs0)).2.1

def stepFr (cfg : Cfg) (p : String) (kvs0 : Kvs) : Option String :=
  (phase_frame cfg p (stepK1 cfg p kvs0)).1

def stepK3 (cfg : Cfg) (p : String) (kvs0 : Kvs) : Kvs :=
  (point_key_check cfg p "actor_point" (stepK2 cfg p kvs0)).1

def stepK4 (cfg : Cfg) (p : String) (kvs0 : Kvs) : Kvs :=
  (point_key_check cfg p "target_point" (stepK3 cfg p kvs0)).1

def stepV (cfg : Cfg) (p : String) (kvs0 : Kvs) : Option (List ℚ) :=
  (phase_vm cfg p (stepK4 cfg p kvs0)).1

def stepM (cfg : Cfg) (p : String) (kvs0 : Kvs) : Option (List ℚ) :=
  (phase_vm cfg p (stepK4 cfg p kvs0)).2.1

def stepK5 (cfg : Cfg) (p : String) (kvs0 : Kvs) : Kvs :=
  (phase_vm cfg p (stepK4 cfg p kvs0)).2.2.1

def stepK6 (cfg : Cfg) (p : String) (kvs0 : Kvs) : Kvs :=
  (phase_hard cfg p (stepSub cfg p kvs0) (stepFr cfg p kvs0) (stepK5 cfg p kvs0)).1

def stepOutKvs (cfg : Cfg) (p : String) (kvs0 : Kvs) : Kvs :=
  (phase_zero cfg p (stepSub cfg p kvs0) (stepFr cfg p kvs0) (stepV cfg p kvs0)
    (stepM cfg p kvs0) (stepK6 cfg p kvs0)).1

/-- The invariant of an auto-fixed, sanitized step dict: every corrective
rewrite has already been performed, so re-validation has nothing to fix. -/
structure StepInv (kvs : Kvs) : Prop where
  actor_done : ∀ s, getKv? kvs "actor_point" = some (.str s) →
    try_parse_point_id (.str s) = none
  target_done : ∀ s, getKv? kvs "target_point" = some (.str s) →
    try_parse_point_id (.str s) = none
  hard_done : ∀ st1 req f1, norm_subtask (getKv kvs "subtask") = some st1 →
    HARD_FRAME_BY_SUBTASK.lookup st1 = some req →
    norm_frame (getKv kvs "frame") = some f1 → f1 = req
  vm_excl : ∀ v m, as_list6 (getKv kvs "V") = some v → as_list6 (getKv kvs "M") = some m →
    ∀ k, ¬(eps9 < |v.getD k 0| ∧ eps9 < |m.getD k 0|)
  zero_blocked : ∀ st1 f1 v m, norm_subtask (getKv kvs "subtask") = some st1 →
    st1 ∈ ZERO_FILL_SUBTASKS → norm_frame (getKv kvs "frame") = some f1 →
    as_list6 (getKv kvs "V") = some v → as_list6 (getKv kvs "M") = some m →
    vmAllZero (some v) (some m) = false

def funcIdx : PointIndex :=
  [("o", [("contact_point", [0]), ("functional_point", [0, 1, 2]), ("any_point", [0, 1, 2])]),
   ("_union", [("contact_point", [0]), ("functional_point", [0, 1, 2]),
     ("any_point", [0, 1, 2])])]

/-! ## Lemmas: dictionaries -/

theorem lookup_cons_kv (a k : String) (v : JValue) (t : Kvs) :
    List.lookup a ((k, v) :: t) = if a = k then some v else List.lookup a t := by
  by_cases h : a = k
  · subst h; simp [List.lookup]
  · simp only [List.lookup, beq_eq_false_iff_ne.mpr h, if_neg h]

theorem lookup_setKv_self (kvs : Kvs) (k : String) (v : JValue) :
    (setKv kvs k v).lookup k = some v := by
  induction kvs with
  | nil => simp [setKv, lookup_cons_kv]
  | cons hd t ih =>
    obtain ⟨k', v'⟩ := hd
    by_cases hk : k' = k
    · subst hk; simp [setKv, lookup_cons_kv]
    · simp only [setKv, if_neg hk, lookup_cons_kv, if_neg (Ne.symm hk)]
      exact ih

theorem setKv_cons (k₀ k : String) (v₀ v : JValue) (t : Kvs) :
    setKv ((k₀, v₀) :: t) k v = if k₀ = k then (k, v) :: t else (k₀, v₀) :: setKv t k v := rfl

theorem lookup_setKv_ne (kvs : Kvs) (k k' : String) (v : JValue) (h : k' ≠ k) :
    (setKv kvs k v).lookup k' = kvs.lookup k' := by
  induction kvs with
  | nil =>
    show List.lookup k' [(k, v)] = List.lookup k' []
    rw [lookup_cons_kv, if_neg h]
  | cons hd t ih =>
    obtain ⟨k₀, v₀⟩ := hd
    by_cases hk : k₀ = k
    · subst hk
      rw [setKv_cons, if_pos rfl, lookup_cons_kv, if_neg h, lookup_cons_kv, if_neg h]
    · rw [setKv_cons, if_neg hk, lookup_cons_kv, lookup_cons_kv]
      by_cases hk' : k' = k₀
      · simp [hk']
      · rw [if_neg hk', if_neg hk', ih]

theorem setKv_of_lookup_eq (kvs : Kvs) (k : String) (v : JValue)
    (h : kvs.lookup k = some v) : setKv kvs k v = kvs := by
  induction kvs with
  | nil => simp [List.lookup] at h
  | cons hd t ih =>
    obtain ⟨k₀, v₀⟩ := hd
    by_cases hk : k₀ = k
    · subst hk
      rw [lookup_cons_kv, if_pos rfl] at h
      cases h
      simp [setKv]
    · rw [lookup_cons_kv, if_neg (Ne.symm hk)] at h
      simp [setKv, hk, ih h]

theorem getKv?_setKv_self (kvs : Kvs) (k : String) (v : JValue) :
    getKv? (setKv kvs k v) k = some v := lookup_setKv_self kvs k v

theorem getKv?_setKv_ne (kvs : Kvs) (k k' : String) (v : JValue) (h : k' ≠ k) :
    getKv? (setKv kvs k v) k' = getKv? kvs k' := lookup_setKv_ne kvs k k' v h

theorem getKv_setKv_self (kvs : Kvs) (k : String) (v : JValue) :
    getKv (setKv kvs k v) k = v := by
  unfold getKv; rw [lookup_setKv_self]; rfl

theorem getKv_setKv_ne (kvs : Kvs) (k k' : String) (v : JValue) (h : k' ≠ k) :
    getKv (setKv kvs k v) k' = getKv kvs k' := by
  unfold getKv; rw [lookup_setKv_ne kvs k k' v h]

theorem getKv_eq_arr_lookup {plan : Kvs} {k : String} {l : List JValue}
    (h : getKv plan k = .arr l) : plan.lookup k = some (.arr l) := by
  unfold getKv at h
  cases hl : plan.lookup k with
  | none => rw [hl] at h; exact absurd h (by simp [Option.getD])
  | some v => rw [hl] at h; simp only [Option.getD] at h; rw [h]

theorem hasErrIssue_append (a b : List ValidationIssue) :
    hasErrIssue (a ++ b) = (hasErrIssue a || hasErrIssue b) := List.any_append

theorem hasErrIssue_flatten (L : List (List ValidationIssue)) :
    hasErrIssue L.flatten = L.any hasErrIssue := by
  induction L with
  | nil => rfl
  | cons h t ih =>
    simp only [List.flatten_cons, hasErrIssue_append, ih, List.any_cons]

theorem hasErrIssue_iff (l : List ValidationIssue) :
    hasErrIssue l = true ↔ ∃ i ∈ l, i.level = "ERROR" := by
  simp [hasErrIssue, isErrLvl, List.any_eq_true, beq_iff_eq]

/-! ## Per-phase facts: the error flag tracks ERROR issues -/

theorem phase_subtask_err (cfg : Cfg) (p : String) (kvs : Kvs) :
    (phase_subtask cfg p kvs).2.2.2 = hasErrIssue (phase_subtask cfg p kvs).2.2.1 := by
  unfold phase_subtask
  cases norm_subtask (getKv kvs "subtask") with
  | none => rfl
  | some st =>
    by_cases h1 : st ∈ ALLOWED_SUBTASKS
    · simp [h1, hasErrIssue]
    · by_cases h2 : cfg.strict_subtasks = true <;>
        simp [h1, h2, hasErrIssue, isErrLvl, errI, warnI]

theorem phase_frame_err (cfg : Cfg) (p : String) (kvs : Kvs) :
    (phase_frame cfg p kvs).2.2.2 = hasErrIssue (phase_frame cfg p kvs).2.2.1 := by
  unfold phase_frame
  cases norm_frame (getKv kvs "frame") with
  | none => rfl
  | some f => simp [hasErrIssue]

theorem point_key_check_err (cfg : Cfg) (p k : String) (kvs : Kvs) :
    (point_key_check cfg p k kvs).2.2 = hasErrIssue (point_key_check cfg p k kvs).2.1 := by
  unfold point_key_check
  split <;> first | rfl | (split <;> first | rfl | (split <;> rfl))

theorem hasErrIssue_nil : hasErrIssue [] = false := rfl

theorem obj_warns_err (p : String) (kvs : Kvs) :
    hasErrIssue (obj_warns p kvs) = false := by
  unfold obj_warns
  rw [hasErrIssue_append]
  split <;> split <;> rfl

theorem vm_fix_err (auto : Bool) (p : String) (v m : List ℚ) :
    (vm_fix auto p v m).2.2 = hasErrIssue (vm_fix auto p v m).2.1 := by
  unfold vm_fix
  split
  · rfl
  · split <;> rfl

theorem zero_dense_warns_err (p : String) (v m : List ℚ) :
    hasErrIssue (zero_dense_warns p v m) = false := by
  unfold zero_dense_warns
  split
  · rfl
  · split <;> rfl

theorem phase_vm_err (cfg : Cfg) (p : String) (kvs : Kvs) :
    (phase_vm cfg p kvs).2.2.2.2 = hasErrIssue (phase_vm cfg p kvs).2.2.2.1 := by
  unfold phase_vm
  rcases hV : as_list6 (getKv kvs "V") with _ | v <;>
    rcases hM : as_list6 (getKv kvs "M") with _ | m <;>
      simp only [hV, hM, Option.isNone_some, Option.isNone_none, Bool.false_eq_true,
        if_false, if_true, List.nil_append, List.append_nil]
  · rfl
  · rfl
  · rfl
  · rw [hasErrIssue_append, zero_dense_warns_err, vm_fix_err, Bool.or_false]

theorem phase_hard_err (cfg : Cfg) (p : String) (subtask frame : Option String) (kvs : Kvs) :
    (phase_hard cfg p subtask frame kvs).2.2 =
      hasErrIssue (phase_hard cfg p subtask frame kvs).2.1 := by
  unfold phase_hard
  split <;> try rfl
  split <;> try rfl
  split <;> try rfl
  split
  · rfl
  · split <;> rfl

theorem phase_zero_err (cfg : Cfg) (p : String) (subtask frame : Option String)
    (V M : Option (List ℚ)) (kvs : Kvs) :
    (phase_zero cfg p subtask frame V M kvs).2.2 =
      hasErrIssue (phase_zero cfg p subtask frame V M kvs).2.1 := by
  unfold phase_zero
  split <;> try rfl
  split <;> try rfl
  split
  · split <;> try rfl
    split <;> try rfl
    split <;> rfl
  · rfl

theorem check_id_union_err (unionC unionF : List ℤ) (ek : String) (pid : ℤ)
    (p fld f : String) :
    (check_id_union unionC unionF ek pid p fld f).2 =
      hasErrIssue (check_id_union unionC unionF ek pid p fld f).1 := by
  unfold check_id_union
  split <;> split <;> rfl

theorem check_id_err (pidx : PointIndex) (unionC unionF unionA : List ℤ)
    (frame expectedKind : Option String) (p fld : String) (kvs : Kvs)
    (objName : Option String) :
    (check_id pidx unionC unionF unionA frame expectedKind p fld kvs objName).2 =
      hasErrIssue (check_id pidx unionC unionF unionA frame expectedKind p fld kvs objName).1 := by
  unfold check_id
  split <;> try rfl
  split
  · split <;> rfl
  · split <;> try rfl
    split
    · split
      · split <;> rfl
      · exact check_id_union_err ..
    · exact check_id_union_err ..

theorem process_step_err (cfg : Cfg) (pidx : PointIndex) (i : ℕ) (step : JValue) :
    (process_step cfg pidx i step).2.2 = hasErrIssue (process_step cfg pidx i step).2.1 := by
  unfold process_step
  cases step <;> try rfl
  simp only
  rw [hasErrIssue_append, hasErrIssue_append, hasErrIssue_append, hasErrIssue_append,
    hasErrIssue_append, hasErrIssue_append, hasErrIssue_append, hasErrIssue_append,
    hasErrIssue_append]
  rw [← phase_subtask_err, ← phase_frame_err, obj_warns_err, ← point_key_check_err,
    ← point_key_check_err, ← phase_vm_err, ← phase_hard_err, ← phase_zero_err,
    ← check_id_err, ← check_id_err]
  simp only [Bool.or_false, Bool.false_or]

theorem taskIssues_no_err (plan : Kvs) : hasErrIssue (taskIssues plan) = false := by
  unfold taskIssues; split <;> rfl

theorem lenIssues_no_err (steps : List JValue) : hasErrIssue (lenIssues steps) = false := by
  unfold lenIssues; split <;> rfl

/-- Decomposition of `validate_plan` in the main (non-degenerate) case. -/
theorem validate_plan_main (plan : Kvs) (pidx : PointIndex)
    (af st : Bool) (mv mm : ℚ) (steps : List JValue)
    (h : getKv plan "sequence" = .arr steps) (hne : steps.isEmpty = false) :
    validate_plan plan pidx af st mv mm =
      ⟨!(stepResults ⟨af, st, mv, mm⟩ pidx steps).any (fun r => r.2.2),
       setKv plan "sequence"
         (.arr ((stepResults ⟨af, st, mv, mm⟩ pidx steps).map (fun r => r.1))),
       taskIssues plan ++ lenIssues steps ++
         ((stepResults ⟨af, st, mv, mm⟩ pidx steps).map (fun r => r.2.1)).flatten⟩ := by
  unfold validate_plan
  rw [h]
  simp only [hne, Bool.false_eq_true, if_false, stepResults]

theorem any_map_fn {α : Type} {β : Type} (l : List α) (f : α → β) (p : β → Bool) :
    (l.map f).any p = l.any (fun x => p (f x)) := by
  induction l with
  | nil => rfl
  | cons h t ih => simp [List.any_cons, ih]

theorem stepResults_err (cfg : Cfg) (pidx : PointIndex) (steps : List JValue) :
    hasErrIssue (((stepResults cfg pidx steps).map (fun r => r.2.1)).flatten) =
      (stepResults cfg pidx steps).any (fun r => r.2.2) := by
  rw [hasErrIssue_flatten, any_map_fn]
  unfold stepResults
  rw [any_map_fn, any_map_fn]
  congr 1
  funext pr
  exact (process_step_err cfg pidx pr.1 pr.2).symm

theorem validate_plan_ok_eq (plan : Kvs) (pidx : PointIndex)
    (af st : Bool) (mv mm : ℚ) :
    (validate_plan plan pidx af st mv mm).ok =
      !hasErrIssue (validate_plan plan pidx af st mv mm).issues := by
  cases hseq : getKv plan "sequence" with
  | arr steps =>
    by_cases he : steps.isEmpty
    · unfold validate_plan
      rw [hseq]
      simp only [he, if_true, hasErrIssue_append, taskIssues_no_err, Bool.false_or]
      rfl
    · rw [validate_plan_main plan pidx af st mv mm steps hseq (by simpa using he)]
      simp only [hasErrIssue_append, taskIssues_no_err, lenIssues_no_err, Bool.false_or,
        stepResults_err]
  | null =>
    unfold validate_plan
    rw [hseq]
    simp only [hasErrIssue_append, taskIssues_no_err, Bool.false_or]
    rfl
  | bool b =>
    unfold validate_plan; rw [hseq]
    simp only [hasErrIssue_append, taskIssues_no_err, Bool.false_or]; rfl
  | int n =>
    unfold validate_plan; rw [hseq]
    simp only [hasErrIssue_append, taskIssues_no_err, Bool.false_or]; rfl
  | float q =>
    unfold validate_plan; rw [hseq]
    simp only [hasErrIssue_append, taskIssues_no_err, Bool.false_or]; rfl
  | nan =>
    unfold validate_plan; rw [hseq]
    simp only [hasErrIssue_append, taskIssues_no_err, Bool.false_or]; rfl
  | str s =>
    unfold validate_plan; rw [hseq]
    simp only [hasErrIssue_append, taskIssues_no_err, Bool.false_or]; rfl
  | obj o =>
    unfold validate_plan; rw [hseq]
    simp only [hasErrIssue_append, taskIssues_no_err, Bool.false_or]; rfl

/-- C2: `ok` is false iff at least one ERROR-level issue was recorded;
in particular a result whose issues are all WARN-level has `ok = true`. -/
theorem validate_plan_ok_false_iff_error_issue (plan : Kvs) (pidx : PointIndex)
    (af st : Bool) (mv mm : ℚ) :
    (validate_plan plan pidx af st mv mm).ok = false ↔
      ∃ i ∈ (validate_plan plan pidx af st mv mm).issues, i.level = "ERROR" := by
  rw [validate_plan_ok_eq, Bool.not_eq_false', hasErrIssue_iff]

/-! ## Without auto-fix nothing is rewritten -/

theorem phase_subtask_kvs_noauto (st : Bool) (mv mm : ℚ) (p : String) (kvs : Kvs) :
    (phase_subtask ⟨false, st, mv, mm⟩ p kvs).2.1 = kvs := by
  unfold phase_subtask
  cases norm_subtask (getKv kvs "subtask") with
  | none => rfl
  | some s =>
    simp only [Bool.false_eq_true, if_false]
    split
    · rfl
    · split <;> rfl

theorem phase_frame_kvs_noauto (st : Bool) (mv mm : ℚ) (p : String) (kvs : Kvs) :
    (phase_frame ⟨false, st, mv, mm⟩ p kvs).2.1 = kvs := by
  unfold phase_frame
  cases norm_frame (getKv kvs "frame") with
  | none => rfl
  | some f => simp only [Bool.false_eq_true, if_false]

theorem point_key_check_kvs_noauto (st : Bool) (mv mm : ℚ) (p k : String) (kvs : Kvs) :
    (point_key_check ⟨false, st, mv, mm⟩ p k kvs).1 = kvs := by
  unfold point_key_check
  split <;> first | rfl | (split <;> first | rfl | (split <;> rfl))

theorem phase_vm_kvs_noauto (st : Bool) (mv mm : ℚ) (p : String) (kvs : Kvs) :
    (phase_vm ⟨false, st, mv, mm⟩ p kvs).2.2.1 = kvs := by
  unfold phase_vm
  rcases hV : as_list6 (getKv kvs "V") with _ | v <;>
    rcases hM : as_list6 (getKv kvs "M") with _ | m <;>
      simp only [hV, hM, Bool.false_eq_true, if_false]

theorem phase_hard_kvs_noauto (st : Bool) (mv mm : ℚ) (p : String)
    (subtask frame : Option String) (kvs : Kvs) :
    (phase_hard ⟨false, st, mv, mm⟩ p subtask frame kvs).1 = kvs := by
  unfold phase_hard
  split <;> try rfl
  split <;> try rfl
  split <;> try rfl
  split
  · rfl
  · simp only [Bool.false_eq_true, if_false]

theorem phase_zero_kvs_noauto (st : Bool) (mv mm : ℚ) (p : String)
    (subtask frame : Option String) (V M : Option (List ℚ)) (kvs : Kvs) :
    (phase_zero ⟨false, st, mv, mm⟩ p subtask frame V M kvs).1 = kvs := by
  unfold phase_zero
  split <;> try rfl
  split
  · simp only [Bool.false_eq_true, if_false]
  · rfl

theorem process_step_noauto (st : Bool) (mv mm : ℚ) (pidx : PointIndex) (i : ℕ)
    (step : JValue) : (process_step ⟨false, st, mv, mm⟩ pidx i step).1 = step := by
  unfold process_step
  cases step <;> try rfl
  simp only [phase_subtask_kvs_noauto, phase_frame_kvs_noauto, point_key_check_kvs_noauto,
    phase_vm_kvs_noauto, phase_hard_kvs_noauto, phase_zero_kvs_noauto]

/-- C9: with `auto_fix=False` the returned sanitized plan is structurally
identical to the (deep copy of the) input plan: no field is ever rewritten,
no matter how many violations are detected. -/
theorem validate_plan_noauto_sanitized_eq (plan : Kvs) (pidx : PointIndex)
    (st : Bool) (mv mm : ℚ) :
    (validate_plan plan pidx false st mv mm).sanitized = plan := by
  cases hseq : getKv plan "sequence" with
  | arr steps =>
    by_cases he : steps.isEmpty
    · unfold validate_plan
      rw [hseq]
      simp only [he, if_true]
    · rw [validate_plan_main plan pidx false st mv mm steps hseq (by simpa using he)]
      show setKv plan "sequence"
        (.arr ((stepResults ⟨false, st, mv, mm⟩ pidx steps).map (fun r => r.1))) = plan
      have hm : (stepResults ⟨false, st, mv, mm⟩ pidx steps).map (fun r => r.1) = steps := by
        unfold stepResults
        rw [List.map_map]
        have hfn : ((fun r : JValue × List ValidationIssue × Bool => r.1) ∘
            fun pr : ℕ × JValue => process_step ⟨false, st, mv, mm⟩ pidx pr.1 pr.2) =
            fun pr : ℕ × JValue => pr.2 := by
          funext pr
          exact process_step_noauto st mv mm pidx pr.1 pr.2
        rw [hfn]
        exact List.enum_map_snd steps
      rw [hm]
      exact setKv_of_lookup_eq _ _ _ (getKv_eq_arr_lookup hseq)
  | null => unfold validate_plan; rw [hseq]
  | bool b => unfold validate_plan; rw [hseq]
  | int n => unfold validate_plan; rw [hseq]
  | float q => unfold validate_plan; rw [hseq]
  | nan => unfold validate_plan; rw [hseq]
  | str s => unfold validate_plan; rw [hseq]
  | obj o => unfold validate_plan; rw [hseq]

theorem codes_mono {l : List ValidationIssue} {cs cs' : List String}
    (h : ∀ i ∈ l, i.code ∈ cs) (hsub : ∀ c ∈ cs, c ∈ cs') : ∀ i ∈ l, i.code ∈ cs' :=
  fun i hi => hsub _ (h i hi)

theorem codes_append {a b : List ValidationIssue} {cs : List String}
    (ha : ∀ i ∈ a, i.code ∈ cs) (hb : ∀ i ∈ b, i.code ∈ cs) :
    ∀ i ∈ a ++ b, i.code ∈ cs := by
  intro i hi
  rcases List.mem_append.mp hi with h | h
  · exact ha i h
  · exact hb i h

theorem phase_subtask_codes (cfg : Cfg) (p : String) (kvs : Kvs) :
    ∀ i ∈ (phase_subtask cfg p kvs).2.2.1,
      i.code ∈ ["BAD_SUBTASK", "SUBTASK_NOT_ALLOWED", "UNKNOWN_SUBTASK"] := by
  unfold phase_subtask
  intro i hi
  repeat' split at hi
  all_goals simp_all [errI, warnI]

theorem phase_frame_codes (cfg : Cfg) (p : String) (kvs : Kvs) :
    ∀ i ∈ (phase_frame cfg p kvs).2.2.1, i.code ∈ ["BAD_FRAME"] := by
  unfold phase_frame
  intro i hi
  repeat' split at hi
  all_goals simp_all [errI, warnI]

theorem obj_warns_codes (p : String) (kvs : Kvs) :
    ∀ i ∈ obj_warns p kvs, i.code ∈ ["BAD_ACTOR_OBJ", "BAD_TARGET_OBJ"] := by
  unfold obj_warns
  intro i hi
  rcases List.mem_append.mp hi with h | h <;>
    (repeat split at h) <;> simp_all [warnI]

theorem point_key_check_codes (cfg : Cfg) (p k : String) (kvs : Kvs) :
    ∀ i ∈ (point_key_check cfg p k kvs).2.1,
      i.code ∈ ["MISSING_POINT_KEY", "POINT_NOT_INT", "POINT_PARSED"] := by
  unfold point_key_check
  intro i hi
  repeat' split at hi
  all_goals simp_all [errI, warnI]

theorem vm_fix_codes (auto : Bool) (p : String) (v m : List ℚ) :
    ∀ i ∈ (vm_fix auto p v m).2.1, i.code ∈ ["VM_RULE_FIXED", "VM_RULE_VIOLATION"] := by
  unfold vm_fix
  intro i hi
  repeat' split at hi
  all_goals simp_all [errI, warnI]

theorem zero_dense_warns_codes (p : String) (v m : List ℚ) :
    ∀ i ∈ zero_dense_warns p v m, i.code ∈ ["ZERO_STEP", "DENSE_TWIST"] := by
  unfold zero_dense_warns
  intro i hi
  repeat' split at hi
  all_goals simp_all [warnI]

theorem phase_vm_codes (cfg : Cfg) (p : String) (kvs : Kvs) :
    ∀ i ∈ (phase_vm cfg p kvs).2.2.2.1,
      i.code ∈ ["BAD_V", "BAD_M", "VM_RULE_FIXED", "VM_RULE_VIOLATION",
        "ZERO_STEP", "DENSE_TWIST"] := by
  unfold phase_vm
  intro i hi
  rcases hV : as_list6 (getKv kvs "V") with _ | v <;>
    rcases hM : as_list6 (getKv kvs "M") with _ | m <;>
      simp only [hV, hM, Option.isNone_some, Option.isNone_none, Bool.false_eq_true,
        if_false, if_true, List.nil_append, List.append_nil] at hi
  · simp at hi
    rcases hi with hi | hi <;> simp [hi, errI]
  · simp at hi; simp [hi, errI]
  · simp at hi; simp [hi, errI]
  · rcases List.mem_append.mp hi with hi | hi
    · have := vm_fix_codes cfg.auto_fix p
        (clamp6 cfg.auto_fix cfg.max_abs_v v) (clamp6 cfg.auto_fix cfg.max_abs_m m) i hi
      simp at this
      rcases this with h | h <;> simp [h]
    · have := zero_dense_warns_codes p
        (clamp6 cfg.auto_fix cfg.max_abs_v v)
        (vm_fix cfg.auto_fix p (clamp6 cfg.auto_fix cfg.max_abs_v v)
          (clamp6 cfg.auto_fix cfg.max_abs_m m)).1 i hi
      simp at this
      rcases this with h | h <;> simp [h]

theorem phase_hard_codes (cfg : Cfg) (p : String) (subtask frame : Option String) (kvs : Kvs) :
    ∀ i ∈ (phase_hard cfg p subtask frame kvs).2.1,
      i.code ∈ ["FRAME_HARD_FIXED", "FRAME_HARD_VIOLATION"] := by
  unfold phase_hard
  intro i hi
  repeat' split at hi
  all_goals simp_all [errI, warnI]

theorem phase_zero_codes (cfg : Cfg) (p : String) (subtask frame : Option String)
    (V M : Option (List ℚ)) (kvs : Kvs) :
    ∀ i ∈ (phase_zero cfg p subtask frame V M kvs).2.1,
      i.code ∈ ["ZERO_STEP_FILLED", "ZERO_STEP_NOT_ALLOWED"] := by
  unfold phase_zero
  intro i hi
  repeat' split at hi
  all_goals simp_all [errI, warnI]

theorem check_id_union_codes (unionC unionF : List ℤ) (ek : String) (pid : ℤ)
    (p fld f : String) :
    ∀ i ∈ (check_id_union unionC unionF ek pid p fld f).1,
      i.code ∈ ["POINT_ID_INVALID_FOR_FRAME"] := by
  unfold check_id_union
  intro i hi
  repeat' split at hi
  all_goals simp_all [errI]

theorem check_id_codes (pidx : PointIndex) (unionC unionF unionA : List ℤ)
    (frame expectedKind : Option String) (p fld : String) (kvs : Kvs)
    (objName : Option String) :
    ∀ i ∈ (check_id pidx unionC unionF unionA frame expectedKind p fld kvs objName).1,
      i.code ∈ POINT_ID_CODES := by
  unfold check_id
  intro i hi
  repeat' split at hi
  all_goals
    first
      | (simp_all [errI, warnI, POINT_ID_CODES]; done)
      | (have hcu := check_id_union_codes _ _ _ _ _ _ _ i hi
         simp at hcu
         simp [hcu, POINT_ID_CODES])

/-! ## Lifting the catalogs to steps and plans -/

theorem process_step_codes (cfg : Cfg) (pidx : PointIndex) (i : ℕ) (step : JValue) :
    ∀ iss ∈ (process_step cfg pidx i step).2.1, iss.code ∈ KNOWN_CODES := by
  unfold process_step
  cases step <;>
    try (intro iss hi; simp at hi; simp [hi, errI, KNOWN_CODES]; done)
  apply codes_append
  apply codes_append
  apply codes_append
  apply codes_append
  apply codes_append
  apply codes_append
  apply codes_append
  apply codes_append
  apply codes_append
  · apply codes_mono (phase_subtask_codes _ _ _)
    intro c hc; simp at hc
    rcases hc with rfl | rfl | rfl <;> simp [KNOWN_CODES]
  · apply codes_mono (phase_frame_codes _ _ _)
    intro c hc; simp at hc; simp [hc, KNOWN_CODES]
  · apply codes_mono (obj_warns_codes _ _)
    intro c hc; simp at hc
    rcases hc with rfl | rfl <;> simp [KNOWN_CODES]
  · apply codes_mono (point_key_check_codes _ _ _ _)
    intro c hc; simp at hc
    rcases hc with rfl | rfl | rfl <;> simp [KNOWN_CODES]
  · apply codes_mono (point_key_check_codes _ _ _ _)
    intro c hc; simp at hc
    rcases hc with rfl | rfl | rfl <;> simp [KNOWN_CODES]
  · apply codes_mono (phase_vm_codes _ _ _)
    intro c hc; simp at hc
    rcases hc with rfl | rfl | rfl | rfl | rfl | rfl <;> simp [KNOWN_CODES]
  · apply codes_mono (phase_hard_codes _ _ _ _ _)
    intro c hc; simp at hc
    rcases hc with rfl | rfl <;> simp [KNOWN_CODES]
  · apply codes_mono (phase_zero_codes _ _ _ _ _ _ _)
    intro c hc; simp at hc
    rcases hc with rfl | rfl <;> simp [KNOWN_CODES]
  · apply codes_mono (check_id_codes _ _ _ _ _ _ _ _ _ _)
    intro c hc; simp [POINT_ID_CODES] at hc
    rcases hc with rfl | rfl | rfl <;> simp [KNOWN_CODES]
  · apply codes_mono (check_id_codes _ _ _ _ _ _ _ _ _ _)
    intro c hc; simp [POINT_ID_CODES] at hc
    rcases hc with rfl | rfl | rfl <;> simp [KNOWN_CODES]

theorem validate_plan_codes (plan : Kvs) (pidx : PointIndex) (af st : Bool) (mv mm : ℚ) :
    ∀ i ∈ (validate_plan plan pidx af st mv mm).issues, i.code ∈ KNOWN_CODES := by
  have htask : ∀ i ∈ taskIssues plan, i.code ∈ KNOWN_CODES := by
    unfold taskIssues
    split <;> (intro i hi; simp at hi; try simp [hi, warnI, KNOWN_CODES])
  cases hseq : getKv plan "sequence" with
  | arr steps =>
    by_cases he : steps.isEmpty
    · unfold validate_plan
      rw [hseq]
      simp only [he, if_true]
      apply codes_append htask
      intro i hi; simp at hi; simp [hi, errI, KNOWN_CODES]
    · rw [validate_plan_main plan pidx af st mv mm steps hseq (by simpa using he)]
      show ∀ i ∈ _ ++ _ ++ _, _
      apply codes_append
      apply codes_append
      · exact htask
      · unfold lenIssues
        split <;> (intro i hi; simp at hi; try simp [hi, warnI, KNOWN_CODES])
      · intro i hi
        rcases List.mem_flatten.mp hi with ⟨l, hl, hil⟩
        rcases List.mem_map.mp hl with ⟨r, hr, rfl⟩
        rcases List.mem_map.mp hr with ⟨pr, hpr, rfl⟩
        exact process_step_codes _ pidx pr.1 pr.2 i hil
  | null =>
    unfold validate_plan; rw [hseq]
    apply codes_append htask
    intro i hi; simp at hi; simp [hi, errI, KNOWN_CODES]
  | bool b =>
    unfold validate_plan; rw [hseq]
    apply codes_append htask
    intro i hi; simp at hi; simp [hi, errI, KNOWN_CODES]
  | int n =>
    unfold validate_plan; rw [hseq]
    apply codes_append htask
    intro i hi; simp at hi; simp [hi, errI, KNOWN_CODES]
  | float q =>
    unfold validate_plan; rw [hseq]
    apply codes_append htask
    intro i hi; simp at hi; simp [hi, errI, KNOWN_CODES]
  | nan =>
    unfold validate_plan; rw [hseq]
    apply codes_append htask
    intro i hi; simp at hi; simp [hi, errI, KNOWN_CODES]
  | str s =>
    unfold validate_plan; rw [hseq]
    apply codes_append htask
    intro i hi; simp at hi; simp [hi, errI, KNOWN_CODES]
  | obj o =>
    unfold validate_plan; rw [hseq]
    apply codes_append htask
    intro i hi; simp at hi; simp [hi, errI, KNOWN_CODES]

/-! ## Which keys each phase can rewrite -/

theorem phase_subtask_other (cfg : Cfg) (p : String) (kvs : Kvs) (k : String)
    (hk : k ≠ "subtask") :
    getKv? (phase_subtask cfg p kvs).2.1 k = getKv? kvs k := by
  unfold phase_subtask
  repeat' split
  all_goals first | rfl | (exact getKv?_setKv_ne kvs "subtask" k _ hk)

theorem phase_frame_other (cfg : Cfg) (p : String) (kvs : Kvs) (k : String)
    (hk : k ≠ "frame") :
    getKv? (phase_frame cfg p kvs).2.1 k = getKv? kvs k := by
  unfold phase_frame
  repeat' split
  all_goals first | rfl | (exact getKv?_setKv_ne kvs "frame" k _ hk)

theorem point_key_check_other (cfg : Cfg) (p pk : String) (kvs : Kvs) (k : String)
    (hk : k ≠ pk) :
    getKv? (point_key_check cfg p pk kvs).1 k = getKv? kvs k := by
  unfold point_key_check
  repeat' split
  all_goals first | rfl | (exact getKv?_setKv_ne kvs pk k _ hk)

theorem phase_vm_other (cfg : Cfg) (p : String) (kvs : Kvs) (k : String)
    (hkV : k ≠ "V") (hkM : k ≠ "M") :
    getKv? (phase_vm cfg p kvs).2.2.1 k = getKv? kvs k := by
  unfold phase_vm
  rcases hV : as_list6 (getKv kvs "V") with _ | v <;>
    rcases hM : as_list6 (getKv kvs "M") with _ | m <;>
      simp only [hV, hM]
  split
  · rw [getKv?_setKv_ne _ "M" k _ hkM, getKv?_setKv_ne _ "V" k _ hkV]
  · rfl

theorem phase_hard_other (cfg : Cfg) (p : String) (subtask frame : Option String)
    (kvs : Kvs) (k : String) (hk : k ≠ "frame") :
    getKv? (phase_hard cfg p subtask frame kvs).1 k = getKv? kvs k := by
  unfold phase_hard
  repeat' split
  all_goals first | rfl | (exact getKv?_setKv_ne kvs "frame" k _ hk)

theorem phase_zero_other (cfg : Cfg) (p : String) (subtask frame : Option String)
    (V M : Option (List ℚ)) (kvs : Kvs) (k : String)
    (hkV : k ≠ "V") (hkM : k ≠ "M") :
    getKv? (phase_zero cfg p subtask frame V M kvs).1 k = getKv? kvs k := by
  unfold phase_zero
  repeat' split
  all_goals
    first
      | rfl
      | (rw [getKv?_setKv_ne _ "M" k _ hkM, getKv?_setKv_ne _ "V" k _ hkV])

/-! ## Projections of the normalization phases -/

theorem phase_subtask_fst (cfg : Cfg) (p : String) (kvs : Kvs) :
    (phase_subtask cfg p kvs).1 = norm_subtask (getKv kvs "subtask") := by
  unfold phase_subtask
  split <;> rename_i heq
  · rw [heq]
  · split
    · rw [heq]
    · split <;> rw [heq]

theorem phase_frame_fst (cfg : Cfg) (p : String) (kvs : Kvs) :
    (phase_frame cfg p kvs).1 = norm_frame (getKv kvs "frame") := by
  unfold phase_frame
  split <;> rename_i heq
  · rw [heq]
  · rw [heq]

theorem getKv_congr {a b : Kvs} {k : String} (h : getKv? a k = getKv? b k) :
    getKv a k = getKv b k := by
  unfold getKv
  unfold getKv? at h
  rw [h]

theorem code_ne_of_codes {iss : ValidationIssue} {cs : List String} (h : iss.code ∈ cs)
    (c : String) (hc : c ∉ cs) : iss.code ≠ c := fun he => hc (he ▸ h)

/-! ## Empty-set exemptions in the point-id checks -/

theorem check_id_world_empty_union (pidx : PointIndex) (uC uF : List ℤ)
    (ek : Option String) (p fld : String) (kvs : Kvs) (obj : Option String) :
    check_id pidx uC uF [] (some "WORLD") ek p fld kvs obj = ([], false) := by
  unfold check_id
  split
  · rfl
  · simp

theorem check_id_obj_empty_set (pidx : PointIndex) (uC uF uA : List ℤ)
    (f ek : String) (p fld : String) (kvs : Kvs) (o : String)
    (hf : f ≠ "WORLD") (ho : idxHas pidx o = true)
    (he : kindGet (idxGet pidx o) ek = []) :
    check_id pidx uC uF uA (some f) (some ek) p fld kvs (some o) = ([], false) := by
  unfold check_id
  split
  · rfl
  · simp [hf, ho, he]

theorem check_id_union_empty (uC uF : List ℤ) (ek : String) (pid : ℤ)
    (p fld f : String) (he : (if ek = "contact_point" then uC else uF) = []) :
    check_id_union uC uF ek pid p fld f = ([], false) := by
  unfold check_id_union
  simp [he]

theorem check_id_empty_index (frame ek : Option String) (p fld : String)
    (kvs : Kvs) (obj : Option String) :
    check_id [] [] [] [] frame ek p fld kvs obj = ([], false) := by
  unfold check_id
  split
  · rfl
  · split
    · split
      · rename_i h
        exact absurd rfl h.1
      · rfl
    · split
      · rfl
      · split
        · split
          · rename_i h
            exact absurd h (by simp [idxHas, List.lookup])
          · exact check_id_union_empty [] [] _ _ _ _ _ (by split <;> rfl)
        · exact check_id_union_empty [] [] _ _ _ _ _ (by split <;> rfl)

theorem process_step_empty_index_no_point_codes (cfg : Cfg) (i : ℕ) (step : JValue) :
    ∀ iss ∈ (process_step cfg [] i step).2.1, iss.code ∉ POINT_ID_CODES := by
  unfold process_step
  cases step <;>
    try (intro iss hi; simp at hi; simp [hi, errI, POINT_ID_CODES]; done)
  intro iss hi
  simp only [] at hi
  rw [show kindGet (idxGet ([] : PointIndex) "_union") "contact_point" = [] from rfl,
      show kindGet (idxGet ([] : PointIndex) "_union") "functional_point" = [] from rfl,
      show kindGet (idxGet ([] : PointIndex) "_union") "any_point" = [] from rfl,
      check_id_empty_index, check_id_empty_index] at hi
  simp only [List.mem_append, List.not_mem_nil, or_false] at hi
  rcases hi with ((((((h | h) | h) | h) | h) | h) | h) | h
  · have hc := phase_subtask_codes _ _ _ iss h
    intro hmem
    simp [POINT_ID_CODES] at hmem
    rcases hmem with he | he | he <;> (rw [he] at hc; simp at hc)
  · have hc := phase_frame_codes _ _ _ iss h
    intro hmem
    simp [POINT_ID_CODES] at hmem
    rcases hmem with he | he | he <;> (rw [he] at hc; simp at hc)
  · have hc := obj_warns_codes _ _ iss h
    intro hmem
    simp [POINT_ID_CODES] at hmem
    rcases hmem with he | he | he <;> (rw [he] at hc; simp at hc)
  · have hc := point_key_check_codes _ _ _ _ iss h
    intro hmem
    simp [POINT_ID_CODES] at hmem
    rcases hmem with he | he | he <;> (rw [he] at hc; simp at hc)
  · have hc := point_key_check_codes _ _ _ _ iss h
    intro hmem
    simp [POINT_ID_CODES] at hmem
    rcases hmem with he | he | he <;> (rw [he] at hc; simp at hc)
  · have hc := phase_vm_codes _ _ _ iss h
    intro hmem
    simp [POINT_ID_CODES] at hmem
    rcases hmem with he | he | he <;> (rw [he] at hc; simp at hc)
  · have hc := phase_hard_codes _ _ _ _ _ iss h
    intro hmem
    simp [POINT_ID_CODES] at hmem
    rcases hmem with he | he | he <;> (rw [he] at hc; simp at hc)
  · have hc := phase_zero_codes _ _ _ _ _ _ _ iss h
    intro hmem
    simp [POINT_ID_CODES] at hmem
    rcases hmem with he | he | he <;> (rw [he] at hc; simp at hc)

theorem forall_mem_append {P : ValidationIssue → Prop} {a b : List ValidationIssue}
    (ha : ∀ i ∈ a, P i) (hb : ∀ i ∈ b, P i) : ∀ i ∈ a ++ b, P i := by
  intro i hi
  rcases List.mem_append.mp hi with h | h
  · exact ha i h
  · exact hb i h

theorem validate_plan_empty_index_no_point_codes (plan : Kvs) (af st : Bool) (mv mm : ℚ) :
    ∀ i ∈ (validate_plan plan [] af st mv mm).issues, i.code ∉ POINT_ID_CODES := by
  have htask : ∀ i ∈ taskIssues plan, i.code ∉ POINT_ID_CODES := by
    unfold taskIssues
    split <;> (intro i hi; simp at hi; try simp [hi, warnI, POINT_ID_CODES])
  cases hseq : getKv plan "sequence" with
  | arr steps =>
    by_cases he : steps.isEmpty
    · unfold validate_plan
      rw [hseq]
      simp only [he, if_true]
      apply forall_mem_append htask
      intro i hi; simp at hi; simp [hi, errI, POINT_ID_CODES]
    · rw [validate_plan_main plan [] af st mv mm steps hseq (by simpa using he)]
      show ∀ i ∈ _ ++ _ ++ _, _
      apply forall_mem_append
      apply forall_mem_append
      · exact htask
      · unfold lenIssues
        split <;> (intro i hi; simp at hi; try simp [hi, warnI, POINT_ID_CODES])
      · intro i hi
        rcases List.mem_flatten.mp hi with ⟨l, hl, hil⟩
        rcases List.mem_map.mp hl with ⟨r, hr, rfl⟩
        rcases List.mem_map.mp hr with ⟨pr, hpr, rfl⟩
        exact process_step_empty_index_no_point_codes _ pr.1 pr.2 i hil
  | null =>
    unfold validate_plan; rw [hseq]
    apply forall_mem_append htask
    intro i hi; simp at hi; simp [hi, errI, POINT_ID_CODES]
  | bool b =>
    unfold validate_plan; rw [hseq]
    apply forall_mem_append htask
    intro i hi; simp at hi; simp [hi, errI, POINT_ID_CODES]
  | int n =>
    unfold validate_plan; rw [hseq]
    apply forall_mem_append htask
    intro i hi; simp at hi; simp [hi, errI, POINT_ID_CODES]
  | float q =>
    unfold validate_plan; rw [hseq]
    apply forall_mem_append htask
    intro i hi; simp at hi; simp [hi, errI, POINT_ID_CODES]
  | nan =>
    unfold validate_plan; rw [hseq]
    apply forall_mem_append htask
    intro i hi; simp at hi; simp [hi, errI, POINT_ID_CODES]
  | str s =>
    unfold validate_plan; rw [hseq]
    apply forall_mem_append htask
    intro i hi; simp at hi; simp [hi, errI, POINT_ID_CODES]
  | obj o =>
    unfold validate_plan; rw [hseq]
    apply forall_mem_append htask
    intro i hi; simp at hi; simp [hi, errI, POINT_ID_CODES]

/-- C10: empty-set exemption of the point-id checks.  Whenever the id set a
membership check would consult is empty, the check is skipped: (1) a WORLD
step with an empty global union yields no issue; (2) a known object whose
expected-kind set is empty yields no issue; (3) an empty expected-kind
union yields no issue in the fallback; (4) with an empty point index no
issue with a point-id code is ever recorded, so every integer point id
passes validation. -/
theorem empty_point_sets_never_flagged :
    (∀ (pidx : PointIndex) (uC uF : List ℤ) (ek : Option String) (p fld : String)
       (kvs : Kvs) (obj : Option String),
       check_id pidx uC uF [] (some "WORLD") ek p fld kvs obj = ([], false)) ∧
    (∀ (pidx : PointIndex) (uC uF uA : List ℤ) (f ek : String) (p fld : String)
       (kvs : Kvs) (o : String), f ≠ "WORLD" → idxHas pidx o = true →
       kindGet (idxGet pidx o) ek = [] →
       check_id pidx uC uF uA (some f) (some ek) p fld kvs (some o) = ([], false)) ∧
    (∀ (uC uF : List ℤ) (ek : String) (pid : ℤ) (p fld f : String),
       (if ek = "contact_point" then uC else uF) = [] →
       check_id_union uC uF ek pid p fld f = ([], false)) ∧
    (∀ (plan : Kvs) (af st : Bool) (mv mm : ℚ),
       ∀ i ∈ (validate_plan plan [] af st mv mm).issues, i.code ∉ POINT_ID_CODES) :=
  ⟨check_id_world_empty_union,
   fun pidx uC uF uA f ek p fld kvs o hf ho he =>
     check_id_obj_empty_set pidx uC uF uA f ek p fld kvs o hf ho he,
   check_id_union_empty,
   validate_plan_empty_index_no_point_codes⟩

theorem empty_point_sets_never_flagged_witness :
    check_id [("o", [("contact_point", [1])])] [1] [1] [] (some "WORLD") none
      "sequence[0]" "actor_point" [("actor_point", JValue.int 9)] (some "o") =
        ([], false) ∧
    check_id [("o", [("contact_point", [1]), ("functional_point", [])])] [1] [] [1]
      (some "FUNCTIONAL") (some "functional_point") "sequence[0]" "actor_point"
      [("actor_point", JValue.int 9)] (some "o") = ([], false) ∧
    check_id_union [] [3] "contact_point" 9 "sequence[0]" "actor_point" "CONTACT" =
      ([], false) ∧
    (∀ i ∈ (validate_plan
        [("task", JValue.str "t"),
         ("sequence", JValue.arr [JValue.obj
           [("subtask", JValue.str "grasp"), ("frame", JValue.str "CONTACT"),
            ("actor_point", JValue.int 9), ("target_point", JValue.int 3),
            ("V", JValue.arr [JValue.int 1, JValue.int 0, JValue.int 0, JValue.int 0,
              JValue.int 0, JValue.int 0]),
            ("M", JValue.arr [JValue.int 0, JValue.int 0, JValue.int 0, JValue.int 0,
              JValue.int 0, JValue.int 0])]])]
        [] true false 3 50).issues, i.code ∉ POINT_ID_CODES) :=
  ⟨empty_point_sets_never_flagged.1 _ _ _ _ _ _ _ _,
   empty_point_sets_never_flagged.2.1 _ _ _ _ "FUNCTIONAL" "functional_point" _ _ _ "o"
     (by decide) (by decide) (by rfl),
   empty_point_sets_never_flagged.2.2.1 _ _ _ _ _ _ _ (by rfl),
   fun i hi => empty_point_sets_never_flagged.2.2.2 _ _ _ _ _ i hi⟩

/-! ## The point-id check is gated by the declared frame (C3) -/

theorem check_id_world_codes (pidx : PointIndex) (uC uF uA : List ℤ)
    (ek : Option String) (p fld : String) (kvs : Kvs) (obj : Option String) :
    ∀ i ∈ (check_id pidx uC uF uA (some "WORLD") ek p fld kvs obj).1,
      i.code = "POINT_ID_NOT_FOUND" := by
  unfold check_id
  intro i hi
  repeat' split at hi
  all_goals simp_all [warnI, errI]

/-! ## Counterexamples -/

/-- C1 counterexample: with auto-fix on, the sanitized plan can keep an axis
where both `|V[k]|` and `|M[k]|` are strictly positive (`V[0] = 1e-10`,
`M[0] = 1`): the code only enforces exclusivity above the `1e-9` threshold,
so the claim's strict `not (|V[k]|>0 and |M[k]|>0)` fails. -/
theorem vm_strict_exclusivity_counterexample :
    (validate_plan tinyVPlan [] true false 3 50).ok = true ∧
    (match (validate_plan tinyVPlan [] true false 3 50).sanitized.lookup "sequence" with
     | some (.arr [.obj kvs]) =>
        ∃ v m, as_list6 (getKv kvs "V") = some v ∧ as_list6 (getKv kvs "M") = some m ∧
          0 < |v.getD 0 0| ∧ 0 < |m.getD 0 0|
     | _ => False) :=
  ⟨by decide,
   ⟨[mkRat 1 10000000000, 0, 0, 0, 0, 0], [1, 0, 0, 0, 0, 0], rfl, rfl,
    by decide, by decide⟩⟩

/-- C3 counterexample: a `grasp` step declared in WORLD is hard-fixed to
CONTACT in the sanitized output, yet its point id 5 (invalid for object
`o`, whose contact set is `{0}`) is checked under the WORLD rule: only a
WARN `POINT_ID_NOT_FOUND` is recorded, no `POINT_ID_INVALID_FOR_OBJECT`
ERROR, and the result is `ok = true` — against the claim that the corrected
frame gates the membership check. -/
theorem corrected_frame_gating_counterexample :
    (validate_plan graspWorldPlan graspWorldIdx true false 3 50).issues.map
        (fun i => i.code) = ["FRAME_HARD_FIXED", "POINT_ID_NOT_FOUND"] ∧
    (validate_plan graspWorldPlan graspWorldIdx true false 3 50).ok = true ∧
    (match (validate_plan graspWorldPlan graspWorldIdx true false 3 50).sanitized.lookup
        "sequence" with
     | some (.arr [.obj kvs]) => getKv kvs "frame" = .str "CONTACT"
     | _ => False) :=
  ⟨by decide, by decide, by exact rfl⟩

/-- C4 counterexample: an all-zero `place` step whose frame is invalid is
not filled under auto-fix (no `ZERO_STEP_FILLED`, `V[2]` stays `0`),
against the claim that every all-zero step of a fill subtask is filled. -/
theorem zero_fill_bad_frame_counterexample :
    (∀ i ∈ (validate_plan zeroPlaceBadFramePlan [] true false 3 50).issues,
      i.code ≠ "ZERO_STEP_FILLED") ∧
    (match (validate_plan zeroPlaceBadFramePlan [] true false 3 50).sanitized.lookup
        "sequence" with
     | some (.arr [.obj kvs]) =>
        as_list6 (getKv kvs "V") = some [0, 0, 0, 0, 0, 0]
     | _ => False) :=
  ⟨by decide, by exact rfl⟩

/-- C5 counterexample: a FUNCTIONAL step with point id 7 against object `o`
whose functional-point set is empty records no
`POINT_ID_INVALID_FOR_OBJECT` and passes (`ok = true`), although 7 is
absent from the (empty) set — the check is skipped for empty sets. -/
theorem object_membership_empty_set_counterexample :
    (validate_plan emptyFunctionalPlan emptyFunctionalIdx true false 3 50).ok = true ∧
    (∀ i ∈ (validate_plan emptyFunctionalPlan emptyFunctionalIdx true false 3 50).issues,
      i.code ≠ "POINT_ID_INVALID_FOR_OBJECT") :=
  ⟨by decide, by decide⟩

/-- C6 counterexample: re-validating the sanitized, auto-fixed grasp/WORLD
plan yields a brand-new ERROR `POINT_ID_INVALID_FOR_OBJECT` (not an
advisory `DENSE_TWIST`/`TOO_MANY_STEPS`): the hard frame fix changed the
gating frame for the second run. -/
theorem revalidation_new_error_counterexample :
    (validate_plan graspWorldPlan graspWorldIdx true false 3 50).ok = true ∧
    (∀ i ∈ (validate_plan graspWorldPlan graspWorldIdx true false 3 50).issues,
      i.code ≠ "POINT_ID_INVALID_FOR_OBJECT") ∧
    (∃ i ∈ (validate_plan
        (validate_plan graspWorldPlan graspWorldIdx true false 3 50).sanitized
        graspWorldIdx true false 3 50).issues,
      i.level = "ERROR" ∧ i.code = "POINT_ID_INVALID_FOR_OBJECT") ∧
    (validate_plan
        (validate_plan graspWorldPlan graspWorldIdx true false 3 50).sanitized
        graspWorldIdx true false 3 50).ok = false :=
  ⟨by decide, by decide, by decide, by decide⟩

/-- C3 amended: the point-id membership check is gated by the originally
declared (normalized) frame, not by the hard-fix-corrected one: a step
whose declared frame normalizes to WORLD is checked only under the WORLD
rule, so it can never receive `POINT_ID_INVALID_FOR_OBJECT` or
`POINT_ID_INVALID_FOR_FRAME` — even when the hard frame rule rewrites its
frame to CONTACT or FUNCTIONAL in the sanitized output. -/
theorem declared_frame_gates_point_checks (cfg : Cfg) (pidx : PointIndex) (i : ℕ)
    (kvs : Kvs) (hf : norm_frame (getKv kvs "frame") = some "WORLD") :
    ∀ iss ∈ (process_step cfg pidx i (.obj kvs)).2.1,
      iss.code ≠ "POINT_ID_INVALID_FOR_OBJECT" ∧
      iss.code ≠ "POINT_ID_INVALID_FOR_FRAME" := by
  intro iss hi
  unfold process_step at hi
  simp only [] at hi
  have hfr : (phase_frame cfg (seqPath i) (phase_subtask cfg (seqPath i) kvs).2.1).1 =
      some "WORLD" := by
    rw [phase_frame_fst,
      getKv_congr (phase_subtask_other cfg (seqPath i) kvs "frame" (by decide)), hf]
  rw [hfr] at hi
  simp only [List.mem_append] at hi
  rcases hi with ((((((((h | h) | h) | h) | h) | h) | h) | h) | h) | h
  · have hc := phase_subtask_codes _ _ _ iss h
    exact ⟨code_ne_of_codes hc _ (by decide), code_ne_of_codes hc _ (by decide)⟩
  · have hc := phase_frame_codes _ _ _ iss h
    exact ⟨code_ne_of_codes hc _ (by decide), code_ne_of_codes hc _ (by decide)⟩
  · have hc := obj_warns_codes _ _ iss h
    exact ⟨code_ne_of_codes hc _ (by decide), code_ne_of_codes hc _ (by decide)⟩
  · have hc := point_key_check_codes _ _ _ _ iss h
    exact ⟨code_ne_of_codes hc _ (by decide), code_ne_of_codes hc _ (by decide)⟩
  · have hc := point_key_check_codes _ _ _ _ iss h
    exact ⟨code_ne_of_codes hc _ (by decide), code_ne_of_codes hc _ (by decide)⟩
  · have hc := phase_vm_codes _ _ _ iss h
    exact ⟨code_ne_of_codes hc _ (by decide), code_ne_of_codes hc _ (by decide)⟩
  · have hc := phase_hard_codes _ _ _ _ _ iss h
    exact ⟨code_ne_of_codes hc _ (by decide), code_ne_of_codes hc _ (by decide)⟩
  · have hc := phase_zero_codes _ _ _ _ _ _ _ iss h
    exact ⟨code_ne_of_codes hc _ (by decide), code_ne_of_codes hc _ (by decide)⟩
  · have hc := check_id_world_codes _ _ _ _ _ _ _ _ _ iss h
    simp [hc]
  · have hc := check_id_world_codes _ _ _ _ _ _ _ _ _ iss h
    simp [hc]

theorem declared_frame_gates_point_checks_witness :
    norm_frame (getKv (match graspWorldStep with | .obj kvs => kvs | _ => []) "frame") =
      some "WORLD" ∧
    (∀ iss ∈ (process_step ⟨true, false, 3, 50⟩ graspWorldIdx 0
        (.obj (match graspWorldStep with | .obj kvs => kvs | _ => []))).2.1,
      iss.code ≠ "POINT_ID_INVALID_FOR_OBJECT" ∧
      iss.code ≠ "POINT_ID_INVALID_FOR_FRAME") :=
  ⟨by decide,
   declared_frame_gates_point_checks ⟨true, false, 3, 50⟩ graspWorldIdx 0 _ (by decide)⟩

/-! ## Numeric lemmas: clamping and thresholds -/

theorem eps9_pos : 0 < eps9 := by decide

theorem abs_clamp_le (x c : ℚ) (hc : 0 ≤ c) : |clamp x (-c) c| ≤ c := by
  unfold clamp
  rw [abs_le]
  refine ⟨le_max_left _ _, max_le (by linarith) (min_le_left _ _)⟩

theorem clamp_eq_of_abs_le (x c : ℚ) (h : |x| ≤ c) : clamp x (-c) c = x := by
  unfold clamp
  rw [abs_le] at h
  rw [min_eq_right h.2, max_eq_right h.1]

/-! ## List index lemmas -/

theorem getD_out_of_range {l : List ℚ} {k : ℕ} (h : l.length ≤ k) : l.getD k 0 = 0 := by
  rw [List.getD_eq_getElem?_getD, List.getElem?_eq_none h]
  rfl

theorem foldl_set_zero_length (ks : List ℕ) (m : List ℚ) :
    (ks.foldl (fun acc j => acc.set j 0) m).length = m.length := by
  induction ks generalizing m with
  | nil => rfl
  | cons j js ih => rw [List.foldl_cons, ih, List.length_set]

theorem foldl_set_zero_getD (ks : List ℕ) (m : List ℚ) (k : ℕ) :
    (ks.foldl (fun acc j => acc.set j 0) m).getD k 0 =
      if k ∈ ks then 0 else m.getD k 0 := by
  induction ks generalizing m with
  | nil => simp
  | cons j js ih =>
    rw [List.foldl_cons, ih]
    by_cases hk : k ∈ js
    · simp [hk]
    · by_cases hkj : k = j
      · subst hkj
        simp only [hk, if_false, List.mem_cons, true_or, if_true]
        rw [List.getD_eq_getElem?_getD]
        by_cases hlen : k < m.length
        · rw [List.getElem?_set_self hlen]
          rfl
        · rw [List.getElem?_eq_none (by rw [List.length_set]; omega)]
          rfl
      · have hne : k ∉ j :: js := by simp [hkj, hk]
        simp only [hk, if_false, hne]
        rw [List.getD_eq_getElem?_getD, List.getD_eq_getElem?_getD,
          List.getElem?_set_ne (fun he => hkj he.symm)]

theorem getD_set_two (l : List ℚ) (k : ℕ) :
    (l.set 2 1).getD k 0 = if k = 2 ∧ 2 < l.length then 1 else l.getD k 0 := by
  by_cases hk : k = 2
  · subst hk
    by_cases hlen : 2 < l.length
    · simp only [hlen, and_true, if_true]
      rw [List.getD_eq_getElem?_getD, List.getElem?_set_self hlen]
      rfl
    · simp only [hlen, and_false, if_false]
      rw [List.getD_eq_getElem?_getD, List.getD_eq_getElem?_getD,
        List.getElem?_eq_none (by rw [List.length_set]; omega),
        List.getElem?_eq_none (by omega)]
  · simp only [hk, false_and, if_false]
    rw [List.getD_eq_getElem?_getD, List.getD_eq_getElem?_getD,
      List.getElem?_set_ne (fun he => hk he.symm)]

/-! ## `violated_of` and `vm_fix` characterizations -/

theorem mem_violated_iff (v m : List ℚ) (k : ℕ) :
    k ∈ violated_of v m ↔ k < 6 ∧ eps9 < |v.getD k 0| ∧ eps9 < |m.getD k 0| := by
  simp [violated_of, List.mem_filter, List.mem_range]

theorem vm_fix_false_M (p : String) (v m : List ℚ) : (vm_fix false p v m).1 = m := by
  unfold vm_fix
  split
  · rfl
  · simp

theorem vm_fix_true_getD (p : String) (v m : List ℚ) (k : ℕ) :
    (vm_fix true p v m).1.getD k 0 =
      if k ∈ violated_of v m then 0 else m.getD k 0 := by
  unfold vm_fix
  split
  · rename_i hemp
    rw [List.isEmpty_iff] at hemp
    rw [if_neg (by rw [hemp]; simp)]
  · simp only [if_true]
    exact foldl_set_zero_getD _ m k

theorem vm_fix_length (auto : Bool) (p : String) (v m : List ℚ) :
    (vm_fix auto p v m).1.length = m.length := by
  unfold vm_fix
  split
  · rfl
  · split
    · exact foldl_set_zero_length _ m
    · rfl

/-! ## `as_list6`, `jnumList`, `clamp6` -/

theorem as_list6_length {j : JValue} {v : List ℚ} (h : as_list6 j = some v) :
    v.length = 6 := by
  unfold as_list6 at h
  cases j <;> simp at h
  rename_i xs
  obtain ⟨⟨hlen, _⟩, hv⟩ := h
  rw [← hv, List.length_map, hlen]

theorem as_list6_jnumList (l : List ℚ) (h : l.length = 6) :
    as_list6 (jnumList l) = some l := by
  unfold jnumList
  show (if ((l.map JValue.float).length == 6 && (l.map JValue.float).all is_number) = true
      then some ((l.map JValue.float).map numVal) else none) = some l
  rw [if_pos]
  · congr 1
    rw [List.map_map]
    have hid : (numVal ∘ JValue.float) = id := funext fun q => rfl
    rw [hid, List.map_id]
  · rw [Bool.and_eq_true]
    constructor
    · simp [List.length_map, h]
    · rw [List.all_eq_true]
      intro x hx
      rcases List.mem_map.mp hx with ⟨q, _, rfl⟩
      rfl

theorem clamp6_length (a : Bool) (b : ℚ) (l : List ℚ) :
    (clamp6 a b l).length = l.length := by
  unfold clamp6
  split
  · rw [List.length_map]
  · rfl

theorem clamp6_false (b : ℚ) (l : List ℚ) : clamp6 false b l = l := rfl

theorem clamp6_true_getD_abs_le (b : ℚ) (hb : 0 ≤ b) (l : List ℚ) (k : ℕ) :
    |(clamp6 true b l).getD k 0| ≤ b := by
  unfold clamp6
  simp only [if_true]
  rw [List.getD_eq_getElem?_getD, List.getElem?_map]
  cases hl : l[k]? with
  | none => simpa using hb
  | some x => exact abs_clamp_le x b hb

theorem clamp6_true_eq_of_bounded (b : ℚ) (l : List ℚ)
    (h : ∀ k, |l.getD k 0| ≤ b) : clamp6 true b l = l := by
  unfold clamp6
  simp only [if_true]
  apply List.ext_getElem
  · rw [List.length_map]
  · intro k h1 h2
    rw [List.getElem_map]
    have := h k
    rw [List.getD_eq_getElem?_getD, List.getElem?_eq_getElem h2] at this
    exact clamp_eq_of_abs_le _ b this

/-! ## Character-level lemmas -/

theorem char_eq_iff_toNat {c d : Char} : c = d ↔ c.toNat = d.toNat :=
  ⟨fun h => h ▸ rfl, fun h => Char.ext (UInt32.ext h)⟩

theorem char_beq_eq (c d : Char) : (c == d) = decide (c.toNat = d.toNat) := by
  by_cases h : c = d
  · subst h; simp
  · have hne : c.toNat ≠ d.toNat := fun he => h (char_eq_iff_toNat.mpr he)
    simp [h, hne]

theorem pySpace_toNat (c : Char) :
    pySpace c = decide (c.toNat = 32 ∨ c.toNat = 9 ∨ c.toNat = 10 ∨ c.toNat = 13 ∨
      c.toNat = 11 ∨ c.toNat = 12) := by
  unfold pySpace
  rw [char_beq_eq, char_beq_eq, char_beq_eq, char_beq_eq, char_beq_eq, char_beq_eq]
  show _ = decide _
  by_cases h1 : c.toNat = 32 <;> by_cases h2 : c.toNat = 9 <;>
    by_cases h3 : c.toNat = 10 <;> by_cases h4 : c.toNat = 13 <;>
    by_cases h5 : c.toNat = 11 <;> by_cases h6 : c.toNat = 12 <;>
    simp [h1, h2, h3, h4, h5, h6]

theorem toNat_ofNat_valid {n : ℕ} (h : n.isValidChar) : (Char.ofNat n).toNat = n := by
  unfold Char.ofNat
  rw [dif_pos h]
  rfl

theorem toLower_toNat (c : Char) :
    (Char.toLower c).toNat =
      if c.toNat ≥ 65 ∧ c.toNat ≤ 90 then c.toNat + 32 else c.toNat := by
  unfold Char.toLower
  split
  · rename_i h
    rw [if_pos h]
    refine toNat_ofNat_valid (Or.inl ?_)
    omega
  · rename_i h
    rw [if_neg h]

theorem toLower_idem (c : Char) : Char.toLower (Char.toLower c) = Char.toLower c := by
  rw [char_eq_iff_toNat]
  simp only [toLower_toNat]
  split_ifs <;> omega

theorem pySpace_toLower (c : Char) : pySpace (Char.toLower c) = pySpace c := by
  rw [pySpace_toNat, pySpace_toNat]
  simp only [toLower_toNat]
  split_ifs with h
  · apply decide_eq_decide.mpr
    constructor <;> (intro hx; omega)
  · rfl

theorem pyUnderscoreSpaces_data (s : String) :
    (pyUnderscoreSpaces s).data = s.data.map replUnd := rfl

theorem replUnd_ne_space (c : Char) : pySpace (replUnd c) = false ∨ replUnd c = c := by
  unfold replUnd
  by_cases h : c = ' '
  · left; rw [if_pos h]; decide
  · right; rw [if_neg h]

theorem pySpace_replUnd_of (c : Char) (h : pySpace c = false) :
    pySpace (replUnd c) = false := by
  rcases replUnd_ne_space c with h' | h'
  · exact h'
  · rw [h', h]

theorem replUnd_replUnd (c : Char) : replUnd (replUnd c) = replUnd c := by
  unfold replUnd
  by_cases h : c = ' '
  · rw [if_pos h, if_neg (by decide)]
  · rw [if_neg h, if_neg h]

theorem toLower_replUnd_toLower (c : Char) :
    Char.toLower (replUnd (Char.toLower c)) = replUnd (Char.toLower c) := by
  unfold replUnd
  by_cases h : Char.toLower c = ' '
  · rw [if_pos h, show Char.toLower '_' = '_' from by decide]
  · rw [if_neg h, toLower_idem]

theorem replUnd_after (c : Char) : replUnd (replUnd c) = replUnd c := replUnd_replUnd c

/-! ## Strip-level lemmas -/

theorem stripChars_eq_rdrop (l : List Char) :
    stripChars l = List.rdropWhile pySpace (List.dropWhile pySpace l) := rfl

theorem dropWhile_length_le (p : Char → Bool) (l : List Char) :
    (List.dropWhile p l).length ≤ l.length :=
  (List.dropWhile_suffix p).sublist.length_le

theorem dropWhile_eq_self_of_prefix {p : Char → Bool} {a b : List Char}
    (ha : List.dropWhile p a = a) (hb : b <+: a) : List.dropWhile p b = b := by
  cases b with
  | nil => rfl
  | cons x xs =>
    obtain ⟨t, ht⟩ := hb
    have hxa : a = x :: (xs ++ t) := by rw [← ht]; rfl
    have hpx : ¬p x := by
      intro hp
      rw [hxa, List.dropWhile_cons_of_pos hp] at ha
      have := congrArg List.length ha
      have hle := dropWhile_length_le p (xs ++ t)
      simp at this hle
      omega
    rw [List.dropWhile_cons_of_neg hpx]

theorem dropWhile_stripChars (l : List Char) :
    List.dropWhile pySpace (stripChars l) = stripChars l := by
  rw [stripChars_eq_rdrop]
  exact dropWhile_eq_self_of_prefix (List.dropWhile_idempotent pySpace l)
    (List.rdropWhile_prefix _ _)

theorem rdropWhile_stripChars (l : List Char) :
    List.rdropWhile pySpace (stripChars l) = stripChars l := by
  rw [stripChars_eq_rdrop]
  exact List.rdropWhile_idempotent _ _

theorem stripChars_eq_self {u : List Char}
    (h1 : List.dropWhile pySpace u = u) (h2 : List.rdropWhile pySpace u = u) :
    stripChars u = u := by
  rw [stripChars_eq_rdrop, h1, h2]

theorem dropWhile_map_of {g : Char → Char}
    (hg : ∀ c, pySpace c = false → pySpace (g c) = false) {u : List Char}
    (h : List.dropWhile pySpace u = u) :
    List.dropWhile pySpace (u.map g) = u.map g := by
  cases u with
  | nil => rfl
  | cons x xs =>
    have hpx : ¬pySpace x := by
      intro hp
      rw [List.dropWhile_cons_of_pos hp] at h
      have := congrArg List.length h
      have hle := dropWhile_length_le pySpace xs
      simp at this
      omega
    rw [List.map_cons, List.dropWhile_cons_of_neg]
    rw [hg x (by simpa using hpx)]
    simp

theorem rdropWhile_map_of {g : Char → Char}
    (hg : ∀ c, pySpace c = false → pySpace (g c) = false) {u : List Char}
    (h : List.rdropWhile pySpace u = u) :
    List.rdropWhile pySpace (u.map g) = u.map g := by
  unfold List.rdropWhile at h ⊢
  rw [← List.map_reverse]
  have h' : List.dropWhile pySpace u.reverse = u.reverse := by
    have := congrArg List.reverse h
    rwa [List.reverse_reverse] at this
  rw [dropWhile_map_of hg h', List.map_reverse, List.reverse_reverse]

theorem reverse_eq_iff_aux {a b : List Char} (h : a.reverse = b) : a = b.reverse := by
  rw [← h, List.reverse_reverse]

/-! ## Idempotence of the subtask normalization -/

theorem normSubtaskStr_data (s : String) :
    (normSubtaskStr s).data = (stripChars s.data).map (fun c => replUnd (Char.toLower c)) := by
  unfold normSubtaskStr pyUnderscoreSpaces pyLower pyStrip
  show ((stripChars s.data).map Char.toLower).map replUnd = _
  rw [List.map_map]
  rfl

theorem normSubtaskStr_idem (s : String) :
    normSubtaskStr (normSubtaskStr s) = normSubtaskStr s := by
  have hg : ∀ c, pySpace c = false → pySpace (replUnd (Char.toLower c)) = false := by
    intro c hc
    apply pySpace_replUnd_of
    rw [pySpace_toLower]
    exact hc
  apply String.ext
  simp only [normSubtaskStr_data]
  set t := stripChars s.data with ht
  have hstrip : stripChars (t.map (fun c => replUnd (Char.toLower c))) =
      t.map (fun c => replUnd (Char.toLower c)) := by
    apply stripChars_eq_self
    · exact dropWhile_map_of hg (dropWhile_stripChars s.data)
    · exact rdropWhile_map_of hg (rdropWhile_stripChars s.data)
  rw [hstrip, List.map_map]
  apply List.map_congr_left
  intro c _
  show replUnd (Char.toLower (replUnd (Char.toLower c))) = replUnd (Char.toLower c)
  rw [toLower_replUnd_toLower, replUnd_replUnd]

theorem norm_subtask_idem {j : JValue} {st : String}
    (h : norm_subtask j = some st) : norm_subtask (.str st) = some st := by
  cases j <;> simp [norm_subtask] at h
  rw [← h]
  show some (normSubtaskStr (normSubtaskStr _)) = _
  rw [normSubtaskStr_idem]

/-! ## Clamp monotonicity and threshold transfer -/

theorem abs_clamp_le_abs (x c : ℚ) (hc : 0 ≤ c) : |clamp x (-c) c| ≤ |x| := by
  unfold clamp
  rw [abs_le]
  constructor
  · exact le_max_iff.mpr (Or.inr (le_min_iff.mpr
      ⟨by linarith [abs_nonneg x], neg_abs_le x⟩))
  · exact max_le (by linarith [abs_nonneg x])
      (le_trans (min_le_right c x) (le_abs_self x))

theorem abs_lt_of_clamp_lt (x c e : ℚ) (he : 0 < e) (hec : e ≤ c)
    (h : |clamp x (-c) c| < e) : |x| < e := by
  by_cases hx : |x| ≤ c
  · rwa [clamp_eq_of_abs_le x c hx] at h
  · exfalso
    push_neg at hx
    unfold clamp at h
    rcases abs_cases x with ⟨hx1, hx2⟩ | ⟨hx1, hx2⟩
    · rw [hx1] at hx
      rw [min_eq_left (by linarith), max_eq_right (by linarith),
        abs_of_nonneg (by linarith)] at h
      linarith
    · rw [hx1] at hx
      rw [min_eq_right (by linarith), max_eq_left (by linarith),
        abs_of_nonpos (by linarith)] at h
      linarith

theorem clamp6_getD_abs_le_abs (b : ℚ) (hb : 0 ≤ b) (l : List ℚ) (k : ℕ) :
    |(clamp6 true b l).getD k 0| ≤ |l.getD k 0| := by
  unfold clamp6
  simp only [if_true]
  rw [List.getD_eq_getElem?_getD, List.getD_eq_getElem?_getD, List.getElem?_map]
  cases hl : l[k]? with
  | none => simp
  | some x => exact abs_clamp_le_abs x b hb

theorem clamp6_getD_lt (b e : ℚ) (he : 0 < e) (heb : e ≤ b) (l : List ℚ) (k : ℕ)
    (h : |(clamp6 true b l).getD k 0| < e) : |l.getD k 0| < e := by
  unfold clamp6 at h
  simp only [if_true] at h
  rw [List.getD_eq_getElem?_getD, List.getElem?_map] at h
  rw [List.getD_eq_getElem?_getD]
  cases hl : l[k]? with
  | none => simpa using he
  | some x =>
    rw [hl] at h
    exact abs_lt_of_clamp_lt x b e he heb h

/-! ## `List.all` below a threshold, index-wise -/

theorem all_lt_getD {l : List ℚ} {e : ℚ} (h : l.all (fun x => decide (|x| < e)) = true)
    (he : 0 < e) (k : ℕ) : |l.getD k 0| < e := by
  by_cases hk : k < l.length
  · rw [List.getD_eq_getElem?_getD, List.getElem?_eq_getElem hk]
    have := List.all_eq_true.mp h l[k] (List.getElem_mem hk)
    simpa using this
  · rw [getD_out_of_range (by omega)]
    simpa using he

theorem all_of_getD {l : List ℚ} {e : ℚ} (h : ∀ k, |l.getD k 0| < e) :
    l.all (fun x => decide (|x| < e)) = true := by
  rw [List.all_eq_true]
  intro x hx
  rcases List.mem_iff_getElem.mp hx with ⟨i, hi, rfl⟩
  have := h i
  rw [List.getD_eq_getElem?_getD, List.getElem?_eq_getElem hi] at this
  simpa using this

theorem vmAllZero_getD {v m : List ℚ} (h : vmAllZero (some v) (some m) = true) (k : ℕ) :
    |v.getD k 0| < eps12 ∧ |m.getD k 0| < eps12 := by
  unfold vmAllZero at h
  rw [Bool.and_eq_true] at h
  exact ⟨all_lt_getD h.1 (by decide) k, all_lt_getD h.2 (by decide) k⟩

theorem vmAllZero_of_getD {v m : List ℚ}
    (h : ∀ k, |v.getD k 0| < eps12 ∧ |m.getD k 0| < eps12) :
    vmAllZero (some v) (some m) = true := by
  unfold vmAllZero
  rw [Bool.and_eq_true]
  exact ⟨all_of_getD (fun k => (h k).1), all_of_getD (fun k => (h k).2)⟩

/-! ## `violated_of` emptiness and consequences -/

theorem violated_empty_of_excl {v m : List ℚ}
    (h : ∀ k, ¬(eps9 < |v.getD k 0| ∧ eps9 < |m.getD k 0|)) :
    violated_of v m = [] := by
  unfold violated_of
  rw [List.filter_eq_nil_iff]
  intro k _
  rw [Bool.and_eq_true, decide_eq_true_eq, decide_eq_true_eq]
  exact fun hc => h k hc

theorem vm_fix_of_empty (auto : Bool) (p : String) (v m : List ℚ)
    (h : violated_of v m = []) : vm_fix auto p v m = (m, [], false) := by
  unfold vm_fix
  rw [if_pos (by rw [h]; rfl)]

theorem vm_fix_excl (p : String) (v m : List ℚ) (hv : v.length = 6) (k : ℕ) :
    ¬(eps9 < |v.getD k 0| ∧ eps9 < |(vm_fix true p v m).1.getD k 0|) := by
  rintro ⟨h1, h2⟩
  have hk6 : k < 6 := by
    by_contra hk
    rw [getD_out_of_range (by omega)] at h1
    exact absurd h1 (by decide)
  rw [vm_fix_true_getD] at h2
  by_cases hkv : k ∈ violated_of v m
  · rw [if_pos hkv] at h2
    exact absurd h2 (by decide)
  · rw [if_neg hkv] at h2
    exact hkv ((mem_violated_iff v m k).mpr ⟨hk6, h1, h2⟩)

theorem vm_fix_getD_abs_le (p : String) (v m : List ℚ) (b : ℚ) (hb : 0 ≤ b)
    (h : ∀ k, |m.getD k 0| ≤ b) (k : ℕ) :
    |(vm_fix true p v m).1.getD k 0| ≤ b := by
  rw [vm_fix_true_getD]
  split
  · simpa using hb
  · exact h k

/-! ## Frame normalization facts -/

theorem norm_frame_mem {j : JValue} {f : String} (h : norm_frame j = some f) :
    f ∈ ALLOWED_FRAMES := by
  cases j with
  | str s =>
    simp only [norm_frame] at h
    split at h
    · rename_i hm
      injection h with h
      subst h
      exact hm
    · exact Option.noConfusion h
  | null => exact Option.noConfusion h
  | bool b => exact Option.noConfusion h
  | int n => exact Option.noConfusion h
  | float q => exact Option.noConfusion h
  | nan => exact Option.noConfusion h
  | arr l => exact Option.noConfusion h
  | obj o => exact Option.noConfusion h

theorem norm_frame_allowed {f : String} (h : f ∈ ALLOWED_FRAMES) :
    norm_frame (.str f) = some f := by
  have : f = "WORLD" ∨ f = "CONTACT" ∨ f = "FUNCTIONAL" := by
    simpa [ALLOWED_FRAMES] using h
  rcases this with rfl | rfl | rfl <;> decide

theorem hard_lookup_mem {st1 req : String}
    (h : HARD_FRAME_BY_SUBTASK.lookup st1 = some req) : req ∈ ALLOWED_FRAMES := by
  unfold HARD_FRAME_BY_SUBTASK at h
  simp only [List.lookup] at h
  repeat' split at h
  all_goals first
    | decide
    | (exact Option.noConfusion h)
    | (injection h with h; subst h; decide)

theorem mem_frames_iff (f : String) :
    f ∈ (["FUNCTIONAL", "CONTACT", "WORLD"] : List String) ↔ f ∈ ALLOWED_FRAMES := by
  simp [ALLOWED_FRAMES]
  tauto

/-! ## Phase characterizations under auto-fix -/

theorem phase_subtask_cases (cfg : Cfg) (p : String) (kvs : Kvs)
    (ha : cfg.auto_fix = true) :
    (norm_subtask (getKv kvs "subtask") = none ∧ (phase_subtask cfg p kvs).1 = none ∧
      (phase_subtask cfg p kvs).2.1 = kvs) ∨
    (∃ st1, norm_subtask (getKv kvs "subtask") = some st1 ∧
      (phase_subtask cfg p kvs).1 = some st1 ∧
      (phase_subtask cfg p kvs).2.1 = setKv kvs "subtask" (.str st1)) := by
  unfold phase_subtask
  split
  · rename_i heq
    exact Or.inl ⟨heq, rfl, rfl⟩
  · rename_i st1 heq
    refine Or.inr ⟨st1, heq, ?_, ?_⟩ <;> (repeat' split) <;> simp_all

theorem phase_frame_cases (cfg : Cfg) (p : String) (kvs : Kvs)
    (ha : cfg.auto_fix = true) :
    (norm_frame (getKv kvs "frame") = none ∧ (phase_frame cfg p kvs).1 = none ∧
      (phase_frame cfg p kvs).2.1 = kvs) ∨
    (∃ f1, norm_frame (getKv kvs "frame") = some f1 ∧
      (phase_frame cfg p kvs).1 = some f1 ∧
      (phase_frame cfg p kvs).2.1 = setKv kvs "frame" (.str f1)) := by
  unfold phase_frame
  split
  · rename_i heq
    exact Or.inl ⟨heq, rfl, rfl⟩
  · rename_i f1 heq
    refine Or.inr ⟨f1, heq, rfl, ?_⟩
    simp [ha]

theorem point_key_check_self (cfg : Cfg) (p k : String) (kvs : Kvs)
    (ha : cfg.auto_fix = true) :
    ∀ s, getKv? (point_key_check cfg p k kvs).1 k = some (.str s) →
      try_parse_point_id (.str s) = none := by
  intro s hs
  unfold point_key_check at hs
  repeat' split at hs
  all_goals try simp_all [getKv?_setKv_self]
  all_goals
    rename_i hnull hnstr hstr hparse
    exact absurd hstr.symm (hnstr s)

theorem point_key_check_nostr (cfg : Cfg) (p k : String) (kvs : Kvs)
    (hs : ∀ s, getKv? kvs k = some (.str s) → try_parse_point_id (.str s) = none) :
    ∀ iss ∈ (point_key_check cfg p k kvs).2.1,
      iss.code ∈ (["MISSING_POINT_KEY", "POINT_NOT_INT"] : List String) := by
  intro iss hi
  unfold point_key_check at hi
  repeat' split at hi
  all_goals simp_all [warnI, errI]

theorem phase_vm_some (cfg : Cfg) (p : String) (kvs : Kvs) (v m : List ℚ)
    (hv : as_list6 (getKv kvs "V") = some v) (hm : as_list6 (getKv kvs "M") = some m)
    (ha : cfg.auto_fix = true) :
    phase_vm cfg p kvs =
      (some (clamp6 true cfg.max_abs_v v),
       some (vm_fix true p (clamp6 true cfg.max_abs_v v) (clamp6 true cfg.max_abs_m m)).1,
       setKv (setKv kvs "V" (jnumList (clamp6 true cfg.max_abs_v v))) "M"
         (jnumList (vm_fix true p (clamp6 true cfg.max_abs_v v)
           (clamp6 true cfg.max_abs_m m)).1),
       (vm_fix true p (clamp6 true cfg.max_abs_v v) (clamp6 true cfg.max_abs_m m)).2.1 ++
         zero_dense_warns p (clamp6 true cfg.max_abs_v v)
           (vm_fix true p (clamp6 true cfg.max_abs_v v) (clamp6 true cfg.max_abs_m m)).1,
       (vm_fix true p (clamp6 true cfg.max_abs_v v) (clamp6 true cfg.max_abs_m m)).2.2) := by
  unfold phase_vm
  rw [hv, hm, ha]
  simp

theorem phase_vm_none (cfg : Cfg) (p : String) (kvs : Kvs)
    (h : as_list6 (getKv kvs "V") = none ∨ as_list6 (getKv kvs "M") = none) :
    (phase_vm cfg p kvs).2.2.1 = kvs ∧
    (phase_vm cfg p kvs).1 = as_list6 (getKv kvs "V") ∧
    (phase_vm cfg p kvs).2.1 = as_list6 (getKv kvs "M") ∧
    vmAllZero (phase_vm cfg p kvs).1 (phase_vm cfg p kvs).2.1 = false := by
  unfold phase_vm
  rcases hV : as_list6 (getKv kvs "V") with _ | v <;>
    rcases hM : as_list6 (getKv kvs "M") with _ | m <;>
      simp only [hV, hM] <;>
      first
        | exact ⟨trivial, trivial, trivial, rfl⟩
        | (exfalso; rcases h with h | h <;> simp_all)

theorem lookup_mem_pair {a b : String} {l : List (String × String)}
    (h : List.lookup a l = some b) : (a, b) ∈ l := by
  induction l with
  | nil => cases h
  | cons kv t ih =>
    obtain ⟨k, v⟩ := kv
    cases hbeq : a == k with
    | true =>
      have hk : a = k := by simpa using hbeq
      simp only [List.lookup, hbeq] at h
      injection h with h
      subst h hk
      exact List.mem_cons_self _ _
    | false =>
      simp only [List.lookup, hbeq] at h
      exact List.mem_cons_of_mem _ (ih h)

theorem phase_hard_cases (cfg : Cfg) (p : String) (sub fr : Option String) (kvs : Kvs)
    (ha : cfg.auto_fix = true) :
    ((phase_hard cfg p sub fr kvs).1 = kvs ∧
      ∀ st1 req f1, sub = some st1 → HARD_FRAME_BY_SUBTASK.lookup st1 = some req →
        fr = some f1 → f1 = req) ∨
    (∃ st1 req f1, sub = some st1 ∧ HARD_FRAME_BY_SUBTASK.lookup st1 = some req ∧
      fr = some f1 ∧ (phase_hard cfg p sub fr kvs).1 = setKv kvs "frame" (.str req)) := by
  rcases sub with _ | st1
  · exact Or.inl ⟨rfl, by rintro a b c ⟨⟩⟩
  rcases hlk : HARD_FRAME_BY_SUBTASK.lookup st1 with _ | req
  · refine Or.inl ⟨?_, ?_⟩
    · unfold phase_hard
      simp [hlk]
    · rintro a b c ⟨⟩ hb h3
      rw [hlk] at hb
      cases hb
  rcases fr with _ | f1
  · refine Or.inl ⟨?_, ?_⟩
    · unfold phase_hard
      simp [hlk]
    · rintro a b c h1 hb ⟨⟩
  by_cases hfr : f1 = req
  · refine Or.inl ⟨?_, ?_⟩
    · unfold phase_hard
      simp [hlk, hfr]
    · rintro a b c ⟨⟩ hb ⟨⟩
      rw [hlk] at hb
      injection hb with hb
      rw [hfr, hb]
  · refine Or.inr ⟨st1, req, f1, rfl, hlk, rfl, ?_⟩
    unfold phase_hard
    simp [hlk, hfr, ha]

theorem phase_hard_pass (cfg : Cfg) (p : String) (sub fr : Option String) (kvs : Kvs)
    (hinv : ∀ st1 req f1, sub = some st1 → HARD_FRAME_BY_SUBTASK.lookup st1 = some req →
      fr = some f1 → f1 = req) :
    phase_hard cfg p sub fr kvs = (kvs, [], false) := by
  rcases sub with _ | st1
  · rfl
  rcases hlk : HARD_FRAME_BY_SUBTASK.lookup st1 with _ | req
  · unfold phase_hard
    simp [hlk]
  rcases fr with _ | f1
  · unfold phase_hard
    simp [hlk]
  · have hfr : f1 = req := hinv st1 req f1 rfl hlk rfl
    unfold phase_hard
    simp [hlk, hfr]

theorem phase_zero_cases (cfg : Cfg) (p : String) (sub fr : Option String)
    (V M : Option (List ℚ)) (kvs : Kvs) (ha : cfg.auto_fix = true) :
    ((phase_zero cfg p sub fr V M kvs).1 = kvs ∧ (phase_zero cfg p sub fr V M kvs).2.1 = [] ∧
      ∀ st1 f1, sub = some st1 → st1 ∈ ZERO_FILL_SUBTASKS → vmAllZero V M = true →
        fr = some f1 → f1 ∈ (["FUNCTIONAL", "CONTACT", "WORLD"] : List String) → False) ∨
    (∃ st1 f1 v m, sub = some st1 ∧ st1 ∈ ZERO_FILL_SUBTASKS ∧ fr = some f1 ∧
      V = some v ∧ M = some m ∧ vmAllZero V M = true ∧
      (phase_zero cfg p sub fr V M kvs).1 =
        setKv (setKv kvs "V" (jnumList (v.set 2 1))) "M" (jnumList m) ∧
      (phase_zero cfg p sub fr V M kvs).2.1 =
        [warnI "ZERO_STEP_FILLED"
          ("Filled all-zero step with default approach Vz=+1.0 in frame=" ++ f1) p]) := by
  rcases sub with _ | st
  · exact Or.inl ⟨rfl, rfl, by rintro a b ⟨⟩⟩
  rcases V with _ | v
  · exact Or.inl ⟨rfl, rfl, fun a b h1 h2 h3 h4 h5 => Bool.noConfusion h3⟩
  rcases M with _ | m
  · exact Or.inl ⟨rfl, rfl, fun a b h1 h2 h3 h4 h5 => Bool.noConfusion h3⟩
  cases hg : vmAllZero (some v) (some m) && decide (st ∈ ZERO_FILL_SUBTASKS) with
  | false =>
    left
    refine ⟨?_, ?_, ?_⟩
    · simp only [phase_zero, hg, Bool.false_eq_true, if_false]
    · simp only [phase_zero, hg, Bool.false_eq_true, if_false]
    · rintro a b ⟨⟩ h2 h3 h4 h5
      rw [h3, decide_eq_true h2] at hg
      exact Bool.noConfusion hg
  | true =>
    have hg' := hg
    rw [Bool.and_eq_true] at hg'
    have hz : vmAllZero (some v) (some m) = true := hg'.1
    have hst : st ∈ ZERO_FILL_SUBTASKS := of_decide_eq_true hg'.2
    rcases fr with _ | f
    · left
      refine ⟨?_, ?_, ?_⟩
      · simp only [phase_zero, hg, if_true, ha]
      · simp only [phase_zero, hg, if_true, ha]
      · rintro a b h1 h2 h3 ⟨⟩
    · by_cases hf : f ∈ (["FUNCTIONAL", "CONTACT", "WORLD"] : List String)
      · right
        refine ⟨st, f, v, m, rfl, hst, rfl, rfl, rfl, hz, ?_, ?_⟩ <;>
          (simp only [phase_zero, hg, if_true, ha]; rw [if_pos hf])
      · left
        refine ⟨?_, ?_, ?_⟩
        · simp only [phase_zero, hg, if_true, ha]
          rw [if_neg hf]
        · simp only [phase_zero, hg, if_true, ha]
          rw [if_neg hf]
        · rintro a b ⟨⟩ h2 h3 ⟨⟩ h5
          exact hf h5

theorem phase_vm_codes_excl (cfg : Cfg) (p : String) (kvs : Kvs) (ha : cfg.auto_fix = true)
    (hbv : 0 ≤ cfg.max_abs_v) (hbm : 0 ≤ cfg.max_abs_m)
    (hexcl : ∀ v m, as_list6 (getKv kvs "V") = some v → as_list6 (getKv kvs "M") = some m →
      ∀ k, ¬(eps9 < |v.getD k 0| ∧ eps9 < |m.getD k 0|)) :
    ∀ iss ∈ (phase_vm cfg p kvs).2.2.2.1,
      iss.code ∈ (["BAD_V", "BAD_M", "ZERO_STEP", "DENSE_TWIST"] : List String) := by
  rcases hV : as_list6 (getKv kvs "V") with _ | v
  · intro iss hi
    unfold phase_vm at hi
    simp only [hV] at hi
    rcases hM : as_list6 (getKv kvs "M") with _ | m <;> simp only [hM] at hi <;>
      simp_all [errI] <;> try (rcases hi with rfl | rfl <;> simp)
  · rcases hM : as_list6 (getKv kvs "M") with _ | m
    · intro iss hi
      unfold phase_vm at hi
      simp only [hV, hM] at hi
      simp_all [errI]
    · have hexcl1 : ∀ k, ¬(eps9 < |(clamp6 true cfg.max_abs_v v).getD k 0| ∧
          eps9 < |(clamp6 true cfg.max_abs_m m).getD k 0|) := by
        rintro k ⟨h1, h2⟩
        exact hexcl v m hV hM k
          ⟨lt_of_lt_of_le h1 (clamp6_getD_abs_le_abs _ hbv v k),
           lt_of_lt_of_le h2 (clamp6_getD_abs_le_abs _ hbm m k)⟩
      intro iss hi
      rw [phase_vm_some cfg p kvs v m hV hM ha,
        vm_fix_of_empty true p _ _ (violated_empty_of_excl hexcl1)] at hi
      simp only [List.nil_append] at hi
      have := zero_dense_warns_codes p _ _ iss hi
      simp only [List.mem_cons, List.not_mem_nil, or_false] at this ⊢
      tauto

theorem taskIssues_code (plan : Kvs) : ∀ iss ∈ taskIssues plan, iss.code = "MISSING_TASK" := by
  unfold taskIssues
  split <;> intro iss hi <;> simp_all [warnI]

theorem lenIssues_code (steps : List JValue) :
    ∀ iss ∈ lenIssues steps, iss.code = "TOO_MANY_STEPS" := by
  unfold lenIssues
  split <;> intro iss hi <;> simp_all [warnI]

/-! ## The step loop body in terms of the named stages -/

theorem process_step_obj_fst (cfg : Cfg) (pidx : PointIndex) (i : ℕ) (kvs0 : Kvs) :
    (process_step cfg pidx i (.obj kvs0)).1 = .obj (stepOutKvs cfg (seqPath i) kvs0) := rfl

theorem process_step_obj_issues (cfg : Cfg) (pidx : PointIndex) (i : ℕ) (kvs0 : Kvs) :
    (process_step cfg pidx i (.obj kvs0)).2.1 =
      (phase_subtask cfg (seqPath i) kvs0).2.2.1 ++
      (phase_frame cfg (seqPath i) (stepK1 cfg (seqPath i) kvs0)).2.2.1 ++
      obj_warns (seqPath i) (stepK2 cfg (seqPath i) kvs0) ++
      (point_key_check cfg (seqPath i) "actor_point" (stepK2 cfg (seqPath i) kvs0)).2.1 ++
      (point_key_check cfg (seqPath i) "target_point" (stepK3 cfg (seqPath i) kvs0)).2.1 ++
      (phase_vm cfg (seqPath i) (stepK4 cfg (seqPath i) kvs0)).2.2.2.1 ++
      (phase_hard cfg (seqPath i) (stepSub cfg (seqPath i) kvs0)
        (stepFr cfg (seqPath i) kvs0) (stepK5 cfg (seqPath i) kvs0)).2.1 ++
      (phase_zero cfg (seqPath i) (stepSub cfg (seqPath i) kvs0)
        (stepFr cfg (seqPath i) kvs0) (stepV cfg (seqPath i) kvs0)
        (stepM cfg (seqPath i) kvs0) (stepK6 cfg (seqPath i) kvs0)).2.1 ++
      (check_id pidx (kindGet (idxGet pidx "_union") "contact_point")
        (kindGet (idxGet pidx "_union") "functional_point")
        (kindGet (idxGet pidx "_union") "any_point")
        (stepFr cfg (seqPath i) kvs0) (expected_kind_of (stepFr cfg (seqPath i) kvs0))
        (seqPath i) "actor_point" (stepOutKvs cfg (seqPath i) kvs0)
        (objNameOf (actor_obj_of (stepK2 cfg (seqPath i) kvs0)))).1 ++
      (check_id pidx (kindGet (idxGet pidx "_union") "contact_point")
        (kindGet (idxGet pidx "_union") "functional_point")
        (kindGet (idxGet pidx "_union") "any_point")
        (stepFr cfg (seqPath i) kvs0) (expected_kind_of (stepFr cfg (seqPath i) kvs0))
        (seqPath i) "target_point" (stepOutKvs cfg (seqPath i) kvs0)
        (objNameOf (target_obj_of (stepK2 cfg (seqPath i) kvs0)))).1 := rfl

/-! ## Which input slot each stage output reads -/

theorem stepOut_sub (cfg : Cfg) (p : String) (kvs0 : Kvs) :
    getKv? (stepOutKvs cfg p kvs0) "subtask" = getKv? (stepK1 cfg p kvs0) "subtask" := by
  unfold stepOutKvs stepK6 stepK5 stepK4 stepK3 stepK2
  rw [phase_zero_other _ _ _ _ _ _ _ _ (by decide) (by decide),
    phase_hard_other _ _ _ _ _ _ (by decide),
    phase_vm_other _ _ _ _ (by decide) (by decide),
    point_key_check_other _ _ _ _ _ (by decide),
    point_key_check_other _ _ _ _ _ (by decide),
    phase_frame_other _ _ _ _ (by decide)]

theorem stepOut_fr6 (cfg : Cfg) (p : String) (kvs0 : Kvs) :
    getKv? (stepOutKvs cfg p kvs0) "frame" = getKv? (stepK6 cfg p kvs0) "frame" := by
  unfold stepOutKvs
  rw [phase_zero_other _ _ _ _ _ _ _ _ (by decide) (by decide)]

theorem stepK5_fr (cfg : Cfg) (p : String) (kvs0 : Kvs) :
    getKv? (stepK5 cfg p kvs0) "frame" = getKv? (stepK2 cfg p kvs0) "frame" := by
  unfold stepK5 stepK4 stepK3
  rw [phase_vm_other _ _ _ _ (by decide) (by decide),
    point_key_check_other _ _ _ _ _ (by decide),
    point_key_check_other _ _ _ _ _ (by decide)]

theorem stepOut_actor (cfg : Cfg) (p : String) (kvs0 : Kvs) :
    getKv? (stepOutKvs cfg p kvs0) "actor_point" =
      getKv? (stepK3 cfg p kvs0) "actor_point" := by
  unfold stepOutKvs stepK6 stepK5 stepK4
  rw [phase_zero_other _ _ _ _ _ _ _ _ (by decide) (by decide),
    phase_hard_other _ _ _ _ _ _ (by decide),
    phase_vm_other _ _ _ _ (by decide) (by decide),
    point_key_check_other _ _ _ _ _ (by decide)]

theorem stepOut_target (cfg : Cfg) (p : String) (kvs0 : Kvs) :
    getKv? (stepOutKvs cfg p kvs0) "target_point" =
      getKv? (stepK4 cfg p kvs0) "target_point" := by
  unfold stepOutKvs stepK6 stepK5
  rw [phase_zero_other _ _ _ _ _ _ _ _ (by decide) (by decide),
    phase_hard_other _ _ _ _ _ _ (by decide),
    phase_vm_other _ _ _ _ (by decide) (by decide)]

theorem stepK6_V (cfg : Cfg) (p : String) (kvs0 : Kvs) :
    getKv? (stepK6 cfg p kvs0) "V" = getKv? (stepK5 cfg p kvs0) "V" := by
  unfold stepK6
  rw [phase_hard_other _ _ _ _ _ _ (by decide)]

theorem stepK6_M (cfg : Cfg) (p : String) (kvs0 : Kvs) :
    getKv? (stepK6 cfg p kvs0) "M" = getKv? (stepK5 cfg p kvs0) "M" := by
  unfold stepK6
  rw [phase_hard_other _ _ _ _ _ _ (by decide)]

theorem stepK4_V (cfg : Cfg) (p : String) (kvs0 : Kvs) :
    getKv? (stepK4 cfg p kvs0) "V" = getKv? kvs0 "V" := by
  unfold stepK4 stepK3 stepK2 stepK1
  rw [point_key_check_other _ _ _ _ _ (by decide),
    point_key_check_other _ _ _ _ _ (by decide),
    phase_frame_other _ _ _ _ (by decide),
    phase_subtask_other _ _ _ _ (by decide)]

theorem stepK4_M (cfg : Cfg) (p : String) (kvs0 : Kvs) :
    getKv? (stepK4 cfg p kvs0) "M" = getKv? kvs0 "M" := by
  unfold stepK4 stepK3 stepK2 stepK1
  rw [point_key_check_other _ _ _ _ _ (by decide),
    point_key_check_other _ _ _ _ _ (by decide),
    phase_frame_other _ _ _ _ (by decide),
    phase_subtask_other _ _ _ _ (by decide)]

theorem stepK2_actor (cfg : Cfg) (p : String) (kvs0 : Kvs) :
    getKv? (stepK2 cfg p kvs0) "actor_point" = getKv? kvs0 "actor_point" := by
  unfold stepK2 stepK1
  rw [phase_frame_other _ _ _ _ (by decide), phase_subtask_other _ _ _ _ (by decide)]

theorem stepK3_target (cfg : Cfg) (p : String) (kvs0 : Kvs) :
    getKv? (stepK3 cfg p kvs0) "target_point" = getKv? kvs0 "target_point" := by
  unfold stepK3 stepK2 stepK1
  rw [point_key_check_other _ _ _ _ _ (by decide),
    phase_frame_other _ _ _ _ (by decide), phase_subtask_other _ _ _ _ (by decide)]

theorem stepK1_fr (cfg : Cfg) (p : String) (kvs0 : Kvs) :
    getKv? (stepK1 cfg p kvs0) "frame" = getKv? kvs0 "frame" := by
  unfold stepK1
  rw [phase_subtask_other _ _ _ _ (by decide)]

theorem stepSub_eq (cfg : Cfg) (p : String) (kvs0 : Kvs) :
    stepSub cfg p kvs0 = norm_subtask (getKv kvs0 "subtask") := phase_subtask_fst cfg p kvs0

theorem stepFr_eq (cfg : Cfg) (p : String) (kvs0 : Kvs) :
    stepFr cfg p kvs0 = norm_frame (getKv kvs0 "frame") := by
  unfold stepFr
  rw [phase_frame_fst, getKv_congr (stepK1_fr cfg p kvs0)]

theorem getKv_of_getKv? {d : Kvs} {k : String} {v : JValue} (h : getKv? d k = some v) :
    getKv d k = v := by
  unfold getKv
  unfold getKv? at h
  rw [h]
  rfl

/-- What the sanitized `V`/`M` of a processed step can be: the clamped input
`V` (possibly zero-filled at index 2) and the exclusivity-fixed clamped `M`. -/
theorem stepOut_vm_char (st : Bool) (p : String) (kvs0 : Kvs) :
    ∀ v' m', as_list6 (getKv (stepOutKvs ⟨true, st, 3, 50⟩ p kvs0) "V") = some v' →
      as_list6 (getKv (stepOutKvs ⟨true, st, 3, 50⟩ p kvs0) "M") = some m' →
      ∃ v0 m0, as_list6 (getKv (stepK4 ⟨true, st, 3, 50⟩ p kvs0) "V") = some v0 ∧
        as_list6 (getKv (stepK4 ⟨true, st, 3, 50⟩ p kvs0) "M") = some m0 ∧
        m' = (vm_fix true p (clamp6 true 3 v0) (clamp6 true 50 m0)).1 ∧
        (v' = clamp6 true 3 v0 ∨
          (v' = (clamp6 true 3 v0).set 2 1 ∧
            vmAllZero (some (clamp6 true 3 v0)) (some m') = true)) := by
  intro v' m' hv' hm'
  rcases hV4 : as_list6 (getKv (stepK4 ⟨true, st, 3, 50⟩ p kvs0) "V") with _ | v0
  · have hn := phase_vm_none ⟨true, st, 3, 50⟩ p (stepK4 ⟨true, st, 3, 50⟩ p kvs0) (Or.inl hV4)
    rcases phase_zero_cases ⟨true, st, 3, 50⟩ p (stepSub ⟨true, st, 3, 50⟩ p kvs0)
        (stepFr ⟨true, st, 3, 50⟩ p kvs0) (stepV ⟨true, st, 3, 50⟩ p kvs0)
        (stepM ⟨true, st, 3, 50⟩ p kvs0) (stepK6 ⟨true, st, 3, 50⟩ p kvs0) rfl with
      ⟨hz1, _, _⟩ | ⟨_, _, _, _, _, _, _, _, _, hzAZ, _, _⟩
    · have hOut : stepOutKvs ⟨true, st, 3, 50⟩ p kvs0 = stepK6 ⟨true, st, 3, 50⟩ p kvs0 := hz1
      rw [hOut, getKv_congr (stepK6_V _ p kvs0)] at hv'
      have h5 : stepK5 ⟨true, st, 3, 50⟩ p kvs0 = stepK4 ⟨true, st, 3, 50⟩ p kvs0 := hn.1
      rw [h5, hV4] at hv'
      cases hv'
    · have hfalse : vmAllZero (stepV ⟨true, st, 3, 50⟩ p kvs0)
          (stepM ⟨true, st, 3, 50⟩ p kvs0) = false := hn.2.2.2
      rw [hzAZ] at hfalse
      cases hfalse
  rcases hM4 : as_list6 (getKv (stepK4 ⟨true, st, 3, 50⟩ p kvs0) "M") with _ | m0
  · have hn := phase_vm_none ⟨true, st, 3, 50⟩ p (stepK4 ⟨true, st, 3, 50⟩ p kvs0) (Or.inr hM4)
    rcases phase_zero_cases ⟨true, st, 3, 50⟩ p (stepSub ⟨true, st, 3, 50⟩ p kvs0)
        (stepFr ⟨true, st, 3, 50⟩ p kvs0) (stepV ⟨true, st, 3, 50⟩ p kvs0)
        (stepM ⟨true, st, 3, 50⟩ p kvs0) (stepK6 ⟨true, st, 3, 50⟩ p kvs0) rfl with
      ⟨hz1, _, _⟩ | ⟨_, _, _, _, _, _, _, _, _, hzAZ, _, _⟩
    · have hOut : stepOutKvs ⟨true, st, 3, 50⟩ p kvs0 = stepK6 ⟨true, st, 3, 50⟩ p kvs0 := hz1
      rw [hOut, getKv_congr (stepK6_M _ p kvs0)] at hm'
      have h5 : stepK5 ⟨true, st, 3, 50⟩ p kvs0 = stepK4 ⟨true, st, 3, 50⟩ p kvs0 := hn.1
      rw [h5, hM4] at hm'
      cases hm'
    · have hfalse : vmAllZero (stepV ⟨true, st, 3, 50⟩ p kvs0)
          (stepM ⟨true, st, 3, 50⟩ p kvs0) = false := hn.2.2.2
      rw [hzAZ] at hfalse
      cases hfalse
  have hsome := phase_vm_some ⟨true, st, 3, 50⟩ p (stepK4 ⟨true, st, 3, 50⟩ p kvs0)
    v0 m0 hV4 hM4 rfl
  have hlenv1 : (clamp6 true (3 : ℚ) v0).length = 6 := by
    rw [clamp6_length]
    exact as_list6_length hV4
  have hlenm2 : ((vm_fix true p (clamp6 true (3 : ℚ) v0) (clamp6 true (50 : ℚ) m0)).1).length = 6 := by
    rw [vm_fix_length, clamp6_length]
    exact as_list6_length hM4
  have hK5 : stepK5 ⟨true, st, 3, 50⟩ p kvs0 =
      setKv (setKv (stepK4 ⟨true, st, 3, 50⟩ p kvs0) "V" (jnumList (clamp6 true 3 v0))) "M"
        (jnumList (vm_fix true p (clamp6 true 3 v0) (clamp6 true 50 m0)).1) := by
    show (phase_vm ⟨true, st, 3, 50⟩ p (stepK4 ⟨true, st, 3, 50⟩ p kvs0)).2.2.1 = _
    rw [hsome]
  have hVloc : stepV ⟨true, st, 3, 50⟩ p kvs0 = some (clamp6 true 3 v0) := by
    show (phase_vm ⟨true, st, 3, 50⟩ p (stepK4 ⟨true, st, 3, 50⟩ p kvs0)).1 = _
    rw [hsome]
  have hMloc : stepM ⟨true, st, 3, 50⟩ p kvs0 =
      some (vm_fix true p (clamp6 true 3 v0) (clamp6 true 50 m0)).1 := by
    show (phase_vm ⟨true, st, 3, 50⟩ p (stepK4 ⟨true, st, 3, 50⟩ p kvs0)).2.1 = _
    rw [hsome]
  have hK5V : getKv (stepK5 ⟨true, st, 3, 50⟩ p kvs0) "V" = jnumList (clamp6 true 3 v0) :=
    getKv_of_getKv? (by
      rw [hK5, getKv?_setKv_ne _ _ _ _ (by decide), getKv?_setKv_self])
  have hK5M : getKv (stepK5 ⟨true, st, 3, 50⟩ p kvs0) "M" =
      jnumList (vm_fix true p (clamp6 true 3 v0) (clamp6 true 50 m0)).1 :=
    getKv_of_getKv? (by rw [hK5, getKv?_setKv_self])
  rcases phase_zero_cases ⟨true, st, 3, 50⟩ p (stepSub ⟨true, st, 3, 50⟩ p kvs0)
      (stepFr ⟨true, st, 3, 50⟩ p kvs0) (stepV ⟨true, st, 3, 50⟩ p kvs0)
      (stepM ⟨true, st, 3, 50⟩ p kvs0) (stepK6 ⟨true, st, 3, 50⟩ p kvs0) rfl with
    ⟨hz1, _, _⟩ | ⟨a1, b1, vf, mf, _, _, _, hzV, hzM, hzAZ, hzK, _⟩
  · have hOut : stepOutKvs ⟨true, st, 3, 50⟩ p kvs0 = stepK6 ⟨true, st, 3, 50⟩ p kvs0 := hz1
    rw [hOut, getKv_congr (stepK6_V _ p kvs0), hK5V, as_list6_jnumList _ hlenv1] at hv'
    rw [hOut, getKv_congr (stepK6_M _ p kvs0), hK5M, as_list6_jnumList _ hlenm2] at hm'
    injection hv' with hv'
    injection hm' with hm'
    subst hv' hm'
    exact ⟨v0, m0, rfl, rfl, rfl, Or.inl rfl⟩
  · rw [hVloc] at hzV
    injection hzV with hzV
    subst hzV
    rw [hMloc] at hzM
    injection hzM with hzM
    subst hzM
    have hOut : stepOutKvs ⟨true, st, 3, 50⟩ p kvs0 =
        setKv (setKv (stepK6 ⟨true, st, 3, 50⟩ p kvs0) "V"
          (jnumList ((clamp6 true 3 v0).set 2 1))) "M"
          (jnumList (vm_fix true p (clamp6 true 3 v0) (clamp6 true 50 m0)).1) := hzK
    have hOV : getKv (stepOutKvs ⟨true, st, 3, 50⟩ p kvs0) "V" =
        jnumList ((clamp6 true 3 v0).set 2 1) :=
      getKv_of_getKv? (by
        rw [hOut, getKv?_setKv_ne _ _ _ _ (by decide), getKv?_setKv_self])
    have hOM : getKv (stepOutKvs ⟨true, st, 3, 50⟩ p kvs0) "M" =
        jnumList (vm_fix true p (clamp6 true 3 v0) (clamp6 true 50 m0)).1 :=
      getKv_of_getKv? (by rw [hOut, getKv?_setKv_self])
    rw [hOV, as_list6_jnumList _ (by rw [List.length_set]; exact hlenv1)] at hv'
    rw [hOM, as_list6_jnumList _ hlenm2] at hm'
    injection hv' with hv'
    injection hm' with hm'
    subst hv' hm'
    refine ⟨v0, m0, rfl, rfl, rfl, Or.inr ⟨rfl, ?_⟩⟩
    rw [hVloc, hMloc] at hzAZ
    exact hzAZ

/-- Auto-fixed step outputs satisfy the sanitization invariant, and their
well-formed `V`/`M` vectors are clamped to the configured bounds. -/
theorem stepOut_main (st : Bool) (p : String) (kvs0 : Kvs) :
    StepInv (stepOutKvs ⟨true, st, 3, 50⟩ p kvs0) ∧
    ∀ v m, as_list6 (getKv (stepOutKvs ⟨true, st, 3, 50⟩ p kvs0) "V") = some v →
      as_list6 (getKv (stepOutKvs ⟨true, st, 3, 50⟩ p kvs0) "M") = some m →
      ∀ k, |v.getD k 0| ≤ 3 ∧ |m.getD k 0| ≤ 50 := by
  constructor
  · constructor
    · -- actor_done
      intro s hs
      rw [stepOut_actor] at hs
      exact point_key_check_self ⟨true, st, 3, 50⟩ p "actor_point"
        (stepK2 ⟨true, st, 3, 50⟩ p kvs0) rfl s hs
    · -- target_done
      intro s hs
      rw [stepOut_target] at hs
      exact point_key_check_self ⟨true, st, 3, 50⟩ p "target_point"
        (stepK3 ⟨true, st, 3, 50⟩ p kvs0) rfl s hs
    · -- hard_done
      intro a b c h1 h2 h3
      rw [getKv_congr (stepOut_sub ⟨true, st, 3, 50⟩ p kvs0)] at h1
      rw [getKv_congr (stepOut_fr6 ⟨true, st, 3, 50⟩ p kvs0)] at h3
      rcases phase_subtask_cases ⟨true, st, 3, 50⟩ p kvs0 rfl with
        ⟨hsn, hs1, hsk⟩ | ⟨st1, hsn, hs1, hsk⟩
      · have hsk' : stepK1 ⟨true, st, 3, 50⟩ p kvs0 = kvs0 := hsk
        rw [hsk', hsn] at h1
        cases h1
      · have hsk' : stepK1 ⟨true, st, 3, 50⟩ p kvs0 = setKv kvs0 "subtask" (.str st1) := hsk
        rw [hsk', getKv_setKv_self, norm_subtask_idem hsn] at h1
        injection h1 with h1
        subst h1
        rcases phase_hard_cases ⟨true, st, 3, 50⟩ p (stepSub ⟨true, st, 3, 50⟩ p kvs0)
            (stepFr ⟨true, st, 3, 50⟩ p kvs0) (stepK5 ⟨true, st, 3, 50⟩ p kvs0) rfl with
          ⟨hh1, hh2⟩ | ⟨st1', req, f1, hhs, hhlk, hhf, hh6⟩
        · have hh1' : stepK6 ⟨true, st, 3, 50⟩ p kvs0 = stepK5 ⟨true, st, 3, 50⟩ p kvs0 := hh1
          rw [hh1', getKv_congr (stepK5_fr ⟨true, st, 3, 50⟩ p kvs0)] at h3
          rcases phase_frame_cases ⟨true, st, 3, 50⟩ p (stepK1 ⟨true, st, 3, 50⟩ p kvs0) rfl with
            ⟨hfn, hf1, hfk⟩ | ⟨f1, hfn, hf1, hfk⟩
          · have hfk' : stepK2 ⟨true, st, 3, 50⟩ p kvs0 = stepK1 ⟨true, st, 3, 50⟩ p kvs0 := hfk
            rw [hfk', hfn] at h3
            cases h3
          · have hfk' : stepK2 ⟨true, st, 3, 50⟩ p kvs0 =
                setKv (stepK1 ⟨true, st, 3, 50⟩ p kvs0) "frame" (.str f1) := hfk
            rw [hfk', getKv_setKv_self, norm_frame_allowed (norm_frame_mem hfn)] at h3
            injection h3 with h3
            subst h3
            exact hh2 st1 b f1 hs1 h2 hf1
        · have hh6' : stepK6 ⟨true, st, 3, 50⟩ p kvs0 =
              setKv (stepK5 ⟨true, st, 3, 50⟩ p kvs0) "frame" (.str req) := hh6
          rw [hh6', getKv_setKv_self, norm_frame_allowed (hard_lookup_mem hhlk)] at h3
          injection h3 with h3
          subst h3
          have hs1' : stepSub ⟨true, st, 3, 50⟩ p kvs0 = some st1 := hs1
          rw [hs1'] at hhs
          injection hhs with hhs
          subst hhs
          rw [hhlk] at h2
          injection h2 with h2
    · -- vm_excl
      intro v m hv hm k
      obtain ⟨v0, m0, hV4, hM4, hmeq, hvor⟩ := stepOut_vm_char st p kvs0 v m hv hm
      subst hmeq
      rcases hvor with rfl | ⟨rfl, hAZ⟩
      · exact vm_fix_excl p (clamp6 true 3 v0) (clamp6 true 50 m0)
          (by rw [clamp6_length]; exact as_list6_length hV4) k
      · rintro ⟨hx1, hx2⟩
        have hlt := (vmAllZero_getD hAZ k).2
        have hle : (eps12 : ℚ) ≤ eps9 := by decide
        linarith
    · -- zero_blocked
      intro a b v m h1 h2 h3 hv hm
      rcases phase_zero_cases ⟨true, st, 3, 50⟩ p (stepSub ⟨true, st, 3, 50⟩ p kvs0)
          (stepFr ⟨true, st, 3, 50⟩ p kvs0) (stepV ⟨true, st, 3, 50⟩ p kvs0)
          (stepM ⟨true, st, 3, 50⟩ p kvs0) (stepK6 ⟨true, st, 3, 50⟩ p kvs0) rfl with
        ⟨hz1, hz2, hz3⟩ | hfill
      · rcases hV4 : as_list6 (getKv (stepK4 ⟨true, st, 3, 50⟩ p kvs0) "V") with _ | v0
        · have hn := phase_vm_none ⟨true, st, 3, 50⟩ p
            (stepK4 ⟨true, st, 3, 50⟩ p kvs0) (Or.inl hV4)
          have hOut : stepOutKvs ⟨true, st, 3, 50⟩ p kvs0 =
              stepK6 ⟨true, st, 3, 50⟩ p kvs0 := hz1
          rw [hOut, getKv_congr (stepK6_V ⟨true, st, 3, 50⟩ p kvs0)] at hv
          have h5 : stepK5 ⟨true, st, 3, 50⟩ p kvs0 = stepK4 ⟨true, st, 3, 50⟩ p kvs0 := hn.1
          rw [h5, hV4] at hv
          cases hv
        rcases hM4 : as_list6 (getKv (stepK4 ⟨true, st, 3, 50⟩ p kvs0) "M") with _ | m0
        · have hn := phase_vm_none ⟨true, st, 3, 50⟩ p
            (stepK4 ⟨true, st, 3, 50⟩ p kvs0) (Or.inr hM4)
          have hOut : stepOutKvs ⟨true, st, 3, 50⟩ p kvs0 =
              stepK6 ⟨true, st, 3, 50⟩ p kvs0 := hz1
          rw [hOut, getKv_congr (stepK6_M ⟨true, st, 3, 50⟩ p kvs0)] at hm
          have h5 : stepK5 ⟨true, st, 3, 50⟩ p kvs0 = stepK4 ⟨true, st, 3, 50⟩ p kvs0 := hn.1
          rw [h5, hM4] at hm
          cases hm
        have hsome := phase_vm_some ⟨true, st, 3, 50⟩ p
          (stepK4 ⟨true, st, 3, 50⟩ p kvs0) v0 m0 hV4 hM4 rfl
        have hlenv1 : (clamp6 true (3 : ℚ) v0).length = 6 := by
          rw [clamp6_length]
          exact as_list6_length hV4
        have hlenm2 : ((vm_fix true p (clamp6 true (3 : ℚ) v0)
            (clamp6 true (50 : ℚ) m0)).1).length = 6 := by
          rw [vm_fix_length, clamp6_length]
          exact as_list6_length hM4
        have hK5 : stepK5 ⟨true, st, 3, 50⟩ p kvs0 =
            setKv (setKv (stepK4 ⟨true, st, 3, 50⟩ p kvs0) "V"
              (jnumList (clamp6 true 3 v0))) "M"
              (jnumList (vm_fix true p (clamp6 true 3 v0) (clamp6 true 50 m0)).1) := by
          show (phase_vm ⟨true, st, 3, 50⟩ p (stepK4 ⟨true, st, 3, 50⟩ p kvs0)).2.2.1 = _
          rw [hsome]
        have hVloc : stepV ⟨true, st, 3, 50⟩ p kvs0 = some (clamp6 true 3 v0) := by
          show (phase_vm ⟨true, st, 3, 50⟩ p (stepK4 ⟨true, st, 3, 50⟩ p kvs0)).1 = _
          rw [hsome]
        have hMloc : stepM ⟨true, st, 3, 50⟩ p kvs0 =
            some (vm_fix true p (clamp6 true 3 v0) (clamp6 true 50 m0)).1 := by
          show (phase_vm ⟨true, st, 3, 50⟩ p (stepK4 ⟨true, st, 3, 50⟩ p kvs0)).2.1 = _
          rw [hsome]
        have hK5V : getKv (stepK5 ⟨true, st, 3, 50⟩ p kvs0) "V" =
            jnumList (clamp6 true 3 v0) :=
          getKv_of_getKv? (by
            rw [hK5, getKv?_setKv_ne _ _ _ _ (by decide), getKv?_setKv_self])
        have hK5M : getKv (stepK5 ⟨true, st, 3, 50⟩ p kvs0) "M" =
            jnumList (vm_fix true p (clamp6 true 3 v0) (clamp6 true 50 m0)).1 :=
          getKv_of_getKv? (by rw [hK5, getKv?_setKv_self])
        have hOut : stepOutKvs ⟨true, st, 3, 50⟩ p kvs0 =
            stepK6 ⟨true, st, 3, 50⟩ p kvs0 := hz1
        rw [hOut, getKv_congr (stepK6_V ⟨true, st, 3, 50⟩ p kvs0), hK5V,
          as_list6_jnumList _ hlenv1] at hv
        rw [hOut, getKv_congr (stepK6_M ⟨true, st, 3, 50⟩ p kvs0), hK5M,
          as_list6_jnumList _ hlenm2] at hm
        injection hv with hv
        injection hm with hm
        subst hv hm
        cases hAZ : vmAllZero (some (clamp6 true 3 v0))
            (some (vm_fix true p (clamp6 true 3 v0) (clamp6 true 50 m0)).1) with
        | false => rfl
        | true =>
          exfalso
          rw [getKv_congr (stepOut_sub ⟨true, st, 3, 50⟩ p kvs0)] at h1
          rcases phase_subtask_cases ⟨true, st, 3, 50⟩ p kvs0 rfl with
            ⟨hsn, hs1, hsk⟩ | ⟨st1, hsn, hs1, hsk⟩
          · have hsk' : stepK1 ⟨true, st, 3, 50⟩ p kvs0 = kvs0 := hsk
            rw [hsk', hsn] at h1
            cases h1
          · have hsk' : stepK1 ⟨true, st, 3, 50⟩ p kvs0 =
                setKv kvs0 "subtask" (.str st1) := hsk
            rw [hsk', getKv_setKv_self, norm_subtask_idem hsn] at h1
            injection h1 with h1
            subst h1
            rw [getKv_congr (stepOut_fr6 ⟨true, st, 3, 50⟩ p kvs0)] at h3
            rcases phase_hard_cases ⟨true, st, 3, 50⟩ p (stepSub ⟨true, st, 3, 50⟩ p kvs0)
                (stepFr ⟨true, st, 3, 50⟩ p kvs0) (stepK5 ⟨true, st, 3, 50⟩ p kvs0) rfl with
              ⟨hh1, hh2⟩ | ⟨st1', req, f1, hhs, hhlk, hhf, hh6⟩
            · have hh1' : stepK6 ⟨true, st, 3, 50⟩ p kvs0 =
                  stepK5 ⟨true, st, 3, 50⟩ p kvs0 := hh1
              rw [hh1', getKv_congr (stepK5_fr ⟨true, st, 3, 50⟩ p kvs0)] at h3
              rcases phase_frame_cases ⟨true, st, 3, 50⟩ p
                  (stepK1 ⟨true, st, 3, 50⟩ p kvs0) rfl with
                ⟨hfn, hf1, hfk⟩ | ⟨f1, hfn, hf1, hfk⟩
              · have hfk' : stepK2 ⟨true, st, 3, 50⟩ p kvs0 =
                    stepK1 ⟨true, st, 3, 50⟩ p kvs0 := hfk
                rw [hfk', hfn] at h3
                cases h3
              · refine hz3 st1 f1 hs1 h2 ?_ hf1 ((mem_frames_iff f1).mpr (norm_frame_mem hfn))
                rw [hVloc, hMloc]
                exact hAZ
            · have hhf2 : norm_frame (getKv kvs0 "frame") = some f1 := by
                rw [← stepFr_eq ⟨true, st, 3, 50⟩ p kvs0]
                exact hhf
              refine hz3 st1 f1 hs1 h2 ?_ hhf ((mem_frames_iff f1).mpr (norm_frame_mem hhf2))
              rw [hVloc, hMloc]
              exact hAZ
      · obtain ⟨a1, b1, vf, mf, hzs, hmem1, hzfr, hzV, hzM, hzAZ, hzK, hzI⟩ := hfill
        rcases hV4 : as_list6 (getKv (stepK4 ⟨true, st, 3, 50⟩ p kvs0) "V") with _ | v0
        · have hn := phase_vm_none ⟨true, st, 3, 50⟩ p
            (stepK4 ⟨true, st, 3, 50⟩ p kvs0) (Or.inl hV4)
          have hVl : stepV ⟨true, st, 3, 50⟩ p kvs0 =
              as_list6 (getKv (stepK4 ⟨true, st, 3, 50⟩ p kvs0) "V") := hn.2.1
          rw [hVl, hV4] at hzV
          cases hzV
        rcases hM4 : as_list6 (getKv (stepK4 ⟨true, st, 3, 50⟩ p kvs0) "M") with _ | m0
        · have hn := phase_vm_none ⟨true, st, 3, 50⟩ p
            (stepK4 ⟨true, st, 3, 50⟩ p kvs0) (Or.inr hM4)
          have hMl : stepM ⟨true, st, 3, 50⟩ p kvs0 =
              as_list6 (getKv (stepK4 ⟨true, st, 3, 50⟩ p kvs0) "M") := hn.2.2.1
          rw [hMl, hM4] at hzM
          cases hzM
        have hsome := phase_vm_some ⟨true, st, 3, 50⟩ p
          (stepK4 ⟨true, st, 3, 50⟩ p kvs0) v0 m0 hV4 hM4 rfl
        have hlenv1 : (clamp6 true (3 : ℚ) v0).length = 6 := by
          rw [clamp6_length]
          exact as_list6_length hV4
        have hVloc : stepV ⟨true, st, 3, 50⟩ p kvs0 = some (clamp6 true 3 v0) := by
          show (phase_vm ⟨true, st, 3, 50⟩ p (stepK4 ⟨true, st, 3, 50⟩ p kvs0)).1 = _
          rw [hsome]
        rw [hVloc] at hzV
        injection hzV with hzV
        subst hzV
        have hOut : stepOutKvs ⟨true, st, 3, 50⟩ p kvs0 =
            setKv (setKv (stepK6 ⟨true, st, 3, 50⟩ p kvs0) "V"
              (jnumList ((clamp6 true 3 v0).set 2 1))) "M" (jnumList mf) := hzK
        have hOV : getKv (stepOutKvs ⟨true, st, 3, 50⟩ p kvs0) "V" =
            jnumList ((clamp6 true 3 v0).set 2 1) :=
          getKv_of_getKv? (by
            rw [hOut, getKv?_setKv_ne _ _ _ _ (by decide), getKv?_setKv_self])
        rw [hOV, as_list6_jnumList _ (by rw [List.length_set]; exact hlenv1)] at hv
        injection hv with hv
        subst hv
        cases hAZ2 : vmAllZero (some ((clamp6 true 3 v0).set 2 1)) (some m) with
        | false => rfl
        | true =>
          exfalso
          have h2' := (vmAllZero_getD hAZ2 2).1
          rw [getD_set_two, if_pos ⟨rfl, by rw [clamp6_length, as_list6_length hV4]; decide⟩] at h2'
          exact absurd h2' (by decide)
  · -- bounds
    intro v m hv hm k
    obtain ⟨v0, m0, hV4, hM4, hmeq, hvor⟩ := stepOut_vm_char st p kvs0 v m hv hm
    subst hmeq
    constructor
    · rcases hvor with rfl | ⟨rfl, hAZ⟩
      · exact clamp6_true_getD_abs_le 3 (by decide) v0 k
      · rw [getD_set_two]
        split
        · decide
        · exact clamp6_true_getD_abs_le 3 (by decide) v0 k
    · exact vm_fix_getD_abs_le p _ _ 50 (by decide)
        (fun j => clamp6_true_getD_abs_le 50 (by decide) m0 j) k

/-- A step dict satisfying the sanitization invariant yields no corrective
fix code when processed again under auto-fix. -/
theorem no_fix_codes_of_inv (st : Bool) (pidx : PointIndex) (i : ℕ) (kvs' : Kvs)
    (hinv : StepInv kvs') :
    ∀ iss ∈ (process_step ⟨true, st, 3, 50⟩ pidx i (.obj kvs')).2.1,
      iss.code ∉ FIX_CODES := by
  intro iss hi
  rw [process_step_obj_issues] at hi
  simp only [List.mem_append] at hi
  rcases hi with ((((((((h | h) | h) | h) | h) | h) | h) | h) | h) | h
  · exact (by decide : ∀ c ∈ (["BAD_SUBTASK", "SUBTASK_NOT_ALLOWED", "UNKNOWN_SUBTASK"] :
      List String), c ∉ FIX_CODES) _ (phase_subtask_codes ⟨true, st, 3, 50⟩ (seqPath i) kvs' iss h)
  · exact (by decide : ∀ c ∈ (["BAD_FRAME"] : List String), c ∉ FIX_CODES) _
      (phase_frame_codes ⟨true, st, 3, 50⟩ (seqPath i) (stepK1 ⟨true, st, 3, 50⟩ (seqPath i) kvs') iss h)
  · exact (by decide : ∀ c ∈ (["BAD_ACTOR_OBJ", "BAD_TARGET_OBJ"] : List String), c ∉ FIX_CODES) _
      (obj_warns_codes (seqPath i) (stepK2 ⟨true, st, 3, 50⟩ (seqPath i) kvs') iss h)
  · have hs : ∀ s, getKv? (stepK2 ⟨true, st, 3, 50⟩ (seqPath i) kvs') "actor_point" =
        some (.str s) → try_parse_point_id (.str s) = none := by
      intro s hq
      rw [stepK2_actor] at hq
      exact hinv.actor_done s hq
    exact (by decide : ∀ c ∈ (["MISSING_POINT_KEY", "POINT_NOT_INT"] : List String),
      c ∉ FIX_CODES) _ (point_key_check_nostr ⟨true, st, 3, 50⟩ (seqPath i) "actor_point" _ hs iss h)
  · have hs : ∀ s, getKv? (stepK3 ⟨true, st, 3, 50⟩ (seqPath i) kvs') "target_point" =
        some (.str s) → try_parse_point_id (.str s) = none := by
      intro s hq
      rw [stepK3_target] at hq
      exact hinv.target_done s hq
    exact (by decide : ∀ c ∈ (["MISSING_POINT_KEY", "POINT_NOT_INT"] : List String),
      c ∉ FIX_CODES) _ (point_key_check_nostr ⟨true, st, 3, 50⟩ (seqPath i) "target_point" _ hs iss h)
  · have hexcl : ∀ v m, as_list6 (getKv (stepK4 ⟨true, st, 3, 50⟩ (seqPath i) kvs') "V") = some v →
        as_list6 (getKv (stepK4 ⟨true, st, 3, 50⟩ (seqPath i) kvs') "M") = some m →
        ∀ k, ¬(eps9 < |v.getD k 0| ∧ eps9 < |m.getD k 0|) := by
      intro v m hv hm k
      rw [getKv_congr (stepK4_V ⟨true, st, 3, 50⟩ (seqPath i) kvs')] at hv
      rw [getKv_congr (stepK4_M ⟨true, st, 3, 50⟩ (seqPath i) kvs')] at hm
      exact hinv.vm_excl v m hv hm k
    exact (by decide : ∀ c ∈ (["BAD_V", "BAD_M", "ZERO_STEP", "DENSE_TWIST"] : List String),
      c ∉ FIX_CODES) _
      (phase_vm_codes_excl ⟨true, st, 3, 50⟩ (seqPath i) _ rfl
        (by show (0 : ℚ) ≤ 3; decide) (by show (0 : ℚ) ≤ 50; decide) hexcl iss h)
  · have hpass : phase_hard ⟨true, st, 3, 50⟩ (seqPath i)
        (stepSub ⟨true, st, 3, 50⟩ (seqPath i) kvs') (stepFr ⟨true, st, 3, 50⟩ (seqPath i) kvs')
        (stepK5 ⟨true, st, 3, 50⟩ (seqPath i) kvs') =
        (stepK5 ⟨true, st, 3, 50⟩ (seqPath i) kvs', [], false) := by
      apply phase_hard_pass
      intro a b c h1 h2 h3
      rw [stepSub_eq] at h1
      rw [stepFr_eq] at h3
      exact hinv.hard_done a b c h1 h2 h3
    rw [hpass] at h
    simp at h
  · rcases phase_zero_cases ⟨true, st, 3, 50⟩ (seqPath i)
        (stepSub ⟨true, st, 3, 50⟩ (seqPath i) kvs') (stepFr ⟨true, st, 3, 50⟩ (seqPath i) kvs')
        (stepV ⟨true, st, 3, 50⟩ (seqPath i) kvs') (stepM ⟨true, st, 3, 50⟩ (seqPath i) kvs')
        (stepK6 ⟨true, st, 3, 50⟩ (seqPath i) kvs') rfl with
      ⟨hz1, hz2, hz3⟩ | ⟨a1, b1, vf, mf, hzs, hmem1, hzfr, hzV, hzM, hzAZ, hzK, hzI⟩
    · rw [hz2] at h
      simp at h
    · exfalso
      rcases hV4 : as_list6 (getKv (stepK4 ⟨true, st, 3, 50⟩ (seqPath i) kvs') "V") with _ | v0
      · have hn := phase_vm_none ⟨true, st, 3, 50⟩ (seqPath i)
          (stepK4 ⟨true, st, 3, 50⟩ (seqPath i) kvs') (Or.inl hV4)
        have hVl : stepV ⟨true, st, 3, 50⟩ (seqPath i) kvs' =
            as_list6 (getKv (stepK4 ⟨true, st, 3, 50⟩ (seqPath i) kvs') "V") := hn.2.1
        rw [hVl, hV4] at hzV
        cases hzV
      rcases hM4 : as_list6 (getKv (stepK4 ⟨true, st, 3, 50⟩ (seqPath i) kvs') "M") with _ | m0
      · have hn := phase_vm_none ⟨true, st, 3, 50⟩ (seqPath i)
          (stepK4 ⟨true, st, 3, 50⟩ (seqPath i) kvs') (Or.inr hM4)
        have hMl : stepM ⟨true, st, 3, 50⟩ (seqPath i) kvs' =
            as_list6 (getKv (stepK4 ⟨true, st, 3, 50⟩ (seqPath i) kvs') "M") := hn.2.2.1
        rw [hMl, hM4] at hzM
        cases hzM
      have hsome := phase_vm_some ⟨true, st, 3, 50⟩ (seqPath i)
        (stepK4 ⟨true, st, 3, 50⟩ (seqPath i) kvs') v0 m0 hV4 hM4 rfl
      have hVloc : stepV ⟨true, st, 3, 50⟩ (seqPath i) kvs' = some (clamp6 true 3 v0) := by
        show (phase_vm ⟨true, st, 3, 50⟩ (seqPath i)
          (stepK4 ⟨true, st, 3, 50⟩ (seqPath i) kvs')).1 = _
        rw [hsome]
      have hMloc : stepM ⟨true, st, 3, 50⟩ (seqPath i) kvs' =
          some (vm_fix true (seqPath i) (clamp6 true 3 v0) (clamp6 true 50 m0)).1 := by
        show (phase_vm ⟨true, st, 3, 50⟩ (seqPath i)
          (stepK4 ⟨true, st, 3, 50⟩ (seqPath i) kvs')).2.1 = _
        rw [hsome]
      rw [hVloc] at hzV
      injection hzV with hzV
      subst hzV
      rw [hMloc] at hzM
      injection hzM with hzM
      subst hzM
      have hv0 : as_list6 (getKv kvs' "V") = some v0 := by
        rw [← getKv_congr (stepK4_V ⟨true, st, 3, 50⟩ (seqPath i) kvs')]
        exact hV4
      have hm0 : as_list6 (getKv kvs' "M") = some m0 := by
        rw [← getKv_congr (stepK4_M ⟨true, st, 3, 50⟩ (seqPath i) kvs')]
        exact hM4
      rw [hVloc, hMloc] at hzAZ
      have hvptw := fun k => (vmAllZero_getD hzAZ k).1
      have hmptw := fun k => (vmAllZero_getD hzAZ k).2
      have hviol : violated_of (clamp6 true 3 v0) (clamp6 true 50 m0) = [] := by
        apply violated_empty_of_excl
        rintro k ⟨hk1, hk2⟩
        have h12 := hvptw k
        have hle : (eps12 : ℚ) ≤ eps9 := by decide
        linarith
      have hm2 : (vm_fix true (seqPath i) (clamp6 true 3 v0) (clamp6 true 50 m0)).1 =
          clamp6 true 50 m0 := by
        rw [vm_fix_of_empty _ _ _ _ hviol]
      rw [hm2] at hmptw
      have hv0ptw : ∀ k, |v0.getD k 0| < eps12 := fun k =>
        clamp6_getD_lt 3 eps12 (by decide) (by decide) v0 k (hvptw k)
      have hm0ptw : ∀ k, |m0.getD k 0| < eps12 := fun k =>
        clamp6_getD_lt 50 eps12 (by decide) (by decide) m0 k (hmptw k)
      have hAZ0 : vmAllZero (some v0) (some m0) = true :=
        vmAllZero_of_getD (fun k => ⟨hv0ptw k, hm0ptw k⟩)
      rw [stepSub_eq] at hzs
      rw [stepFr_eq] at hzfr
      have hblock := hinv.zero_blocked a1 b1 v0 m0 hzs hmem1 hzfr hv0 hm0
      rw [hAZ0] at hblock
      cases hblock
  · exact (by decide : ∀ c ∈ POINT_ID_CODES, c ∉ FIX_CODES) _
      (check_id_codes pidx _ _ _ _ _ (seqPath i) "actor_point" _ _ iss h)
  · exact (by decide : ∀ c ∈ POINT_ID_CODES, c ∉ FIX_CODES) _
      (check_id_codes pidx _ _ _ _ _ (seqPath i) "target_point" _ _ iss h)

theorem snd_mem_of_mem_enum {α : Type} {pr : ℕ × α} {l : List α} (h : pr ∈ l.enum) :
    pr.2 ∈ l := by
  rw [List.mem_enum_iff_getElem?] at h
  exact List.getElem?_mem h

theorem step_shape (s : JValue) : (∃ kvs0, s = .obj kvs0) ∨ (∀ kvs0, s ≠ .obj kvs0) := by
  cases s
  case obj o => exact Or.inl ⟨o, rfl⟩
  all_goals exact Or.inr (fun kvs0 h => JValue.noConfusion h)

theorem process_step_not_obj (cfg : Cfg) (pidx : PointIndex) (i : ℕ) (s : JValue)
    (h : ∀ kvs0, s ≠ .obj kvs0) :
    (process_step cfg pidx i s).1 = s ∧
    (process_step cfg pidx i s).2.1 =
      [errI "STEP_NOT_OBJECT" "Each step must be an object." (seqPath i)] := by
  cases s
  case obj o => exact absurd rfl (h o)
  all_goals exact ⟨rfl, rfl⟩

/-- Every step of the sanitized sequence is the output of the per-step loop
body on some input step. -/
theorem sanitized_mem_process_step (plan : Kvs) (pidx : PointIndex) (af st : Bool)
    (mv mm : ℚ) {l : List JValue}
    (hl : getKv (validate_plan plan pidx af st mv mm).sanitized "sequence" = .arr l) :
    ∀ step ∈ l, ∃ i s, step = (process_step ⟨af, st, mv, mm⟩ pidx i s).1 := by
  intro step hstep
  cases hseq : getKv plan "sequence" with
  | arr steps =>
    by_cases he : steps.isEmpty
    · unfold validate_plan at hl
      rw [hseq] at hl
      simp only [he, if_true] at hl
      rw [hseq] at hl
      injection hl with hl
      subst hl
      rw [List.isEmpty_iff] at he
      subst he
      cases hstep
    · rw [validate_plan_main plan pidx af st mv mm steps hseq (by simpa using he)] at hl
      rw [getKv_of_getKv? (getKv?_setKv_self plan "sequence" _)] at hl
      injection hl with hl
      subst hl
      rcases List.mem_map.mp hstep with ⟨r, hr, rfl⟩
      unfold stepResults at hr
      rcases List.mem_map.mp hr with ⟨pr, hpr, rfl⟩
      exact ⟨pr.1, pr.2, rfl⟩
  | null =>
    unfold validate_plan at hl
    rw [hseq] at hl
    simp only [] at hl
    rw [hseq] at hl
    cases hl
  | bool b =>
    unfold validate_plan at hl
    rw [hseq] at hl
    simp only [] at hl
    rw [hseq] at hl
    cases hl
  | int n =>
    unfold validate_plan at hl
    rw [hseq] at hl
    simp only [] at hl
    rw [hseq] at hl
    cases hl
  | float q =>
    unfold validate_plan at hl
    rw [hseq] at hl
    simp only [] at hl
    rw [hseq] at hl
    cases hl
  | nan =>
    unfold validate_plan at hl
    rw [hseq] at hl
    simp only [] at hl
    rw [hseq] at hl
    cases hl
  | str s =>
    unfold validate_plan at hl
    rw [hseq] at hl
    simp only [] at hl
    rw [hseq] at hl
    cases hl
  | obj o =>
    unfold validate_plan at hl
    rw [hseq] at hl
    simp only [] at hl
    rw [hseq] at hl
    cases hl

/-- C1 (amended): with auto-fix enabled and the default bounds, every step of
the sanitized plan whose `V` and `M` parse as 6-vectors satisfies the VM rule
at the code's `1e-9` threshold: no axis has both `|V[k]|` and `|M[k]|` above
`1e-9` (the strict `> 0` reading is refuted by `vm_strict_exclusivity_counterexample`). -/
theorem vm_exclusivity_sanitized (plan : Kvs) (pidx : PointIndex) (st : Bool) :
    ∀ l, getKv (validate_plan plan pidx true st 3 50).sanitized "sequence" = .arr l →
    ∀ step ∈ l, ∀ kvs, step = .obj kvs →
    ∀ v m, as_list6 (getKv kvs "V") = some v → as_list6 (getKv kvs "M") = some m →
    ∀ k, ¬(eps9 < |v.getD k 0| ∧ eps9 < |m.getD k 0|) := by
  intro l hl step hstep kvs hkvs v m hv hm k
  obtain ⟨i, s, rfl⟩ := sanitized_mem_process_step plan pidx true st 3 50 hl step hstep
  rcases step_shape s with ⟨kvs0, rfl⟩ | hno
  · rw [process_step_obj_fst] at hkvs
    injection hkvs with hkvs
    subst hkvs
    exact (stepOut_main st (seqPath i) kvs0).1.vm_excl v m hv hm k
  · rw [(process_step_not_obj ⟨true, st, 3, 50⟩ pidx i s hno).1] at hkvs
    exact absurd hkvs (hno kvs)

/-- C7: with auto-fix enabled and the default bounds `3.0`/`50.0`, every step
of the sanitized plan whose `V` and `M` parse as 6-vectors is clamped
componentwise to those bounds, and every recorded issue carries one of the
known codes — none of which reports the clamping itself. -/
theorem clamp_bounds_no_issue (plan : Kvs) (pidx : PointIndex) (st : Bool) :
    (∀ l, getKv (validate_plan plan pidx true st 3 50).sanitized "sequence" = .arr l →
      ∀ step ∈ l, ∀ kvs, step = .obj kvs →
      ∀ v m, as_list6 (getKv kvs "V") = some v → as_list6 (getKv kvs "M") = some m →
      ∀ k, |v.getD k 0| ≤ 3 ∧ |m.getD k 0| ≤ 50) ∧
    (∀ iss ∈ (validate_plan plan pidx true st 3 50).issues, iss.code ∈ KNOWN_CODES) := by
  constructor
  · intro l hl step hstep kvs hkvs v m hv hm k
    obtain ⟨i, s, rfl⟩ := sanitized_mem_process_step plan pidx true st 3 50 hl step hstep
    rcases step_shape s with ⟨kvs0, rfl⟩ | hno
    · rw [process_step_obj_fst] at hkvs
      injection hkvs with hkvs
      subst hkvs
      exact (stepOut_main st (seqPath i) kvs0).2 v m hv hm k
    · rw [(process_step_not_obj ⟨true, st, 3, 50⟩ pidx i s hno).1] at hkvs
      exact absurd hkvs (hno kvs)
  · exact validate_plan_codes plan pidx true st 3 50

/-- C6 (amended): re-validating the sanitized output of an auto-fixed run
(auto-fix still on, same point index, default bounds) emits no corrective
fix code — no `POINT_PARSED`, `VM_RULE_FIXED`, `FRAME_HARD_FIXED` or
`ZERO_STEP_FILLED`; new issues may still appear (see
`revalidation_new_error_counterexample`), so the run is not literally
idempotent on issues. -/
theorem revalidation_no_fix_codes (plan : Kvs) (pidx : PointIndex) (st : Bool) :
    ∀ iss ∈ (validate_plan (validate_plan plan pidx true st 3 50).sanitized
        pidx true st 3 50).issues,
      iss.code ∉ FIX_CODES := by
  intro iss hiss
  cases hseq : getKv plan "sequence" with
  | arr steps =>
    by_cases he : steps.isEmpty
    · have hsan : (validate_plan plan pidx true st 3 50).sanitized = plan := by
        unfold validate_plan
        rw [hseq]
        simp [he]
      rw [hsan] at hiss
      unfold validate_plan at hiss
      rw [hseq] at hiss
      simp only [he, if_true] at hiss
      rcases List.mem_append.mp hiss with h | h
      · rw [taskIssues_code plan iss h]
        decide
      · simp at h
        rw [h]
        decide
    · have hsan : (validate_plan plan pidx true st 3 50).sanitized =
          setKv plan "sequence"
            (.arr ((stepResults ⟨true, st, 3, 50⟩ pidx steps).map (fun r => r.1))) := by
        rw [validate_plan_main plan pidx true st 3 50 steps hseq (by simpa using he)]
      rw [hsan] at hiss
      have hseq2 : getKv (setKv plan "sequence"
          (.arr ((stepResults ⟨true, st, 3, 50⟩ pidx steps).map (fun r => r.1)))) "sequence" =
          .arr ((stepResults ⟨true, st, 3, 50⟩ pidx steps).map (fun r => r.1)) :=
        getKv_of_getKv? (getKv?_setKv_self plan "sequence" _)
      have hne2 : ((stepResults ⟨true, st, 3, 50⟩ pidx steps).map (fun r => r.1)).isEmpty =
          false := by
        cases hE : ((stepResults ⟨true, st, 3, 50⟩ pidx steps).map (fun r => r.1)).isEmpty
        · rfl
        · exfalso
          rw [List.isEmpty_iff] at hE
          have hlen := congrArg List.length hE
          rw [List.length_map] at hlen
          unfold stepResults at hlen
          rw [List.length_map, List.enum_length] at hlen
          simp only [List.length_nil] at hlen
          rw [List.length_eq_zero] at hlen
          rw [hlen] at he
          exact he rfl
      rw [validate_plan_main _ pidx true st 3 50 _ hseq2 hne2] at hiss
      rcases List.mem_append.mp hiss with h | h
      · rcases List.mem_append.mp h with h1 | h1
        · rw [taskIssues_code _ iss h1]
          decide
        · rw [lenIssues_code _ iss h1]
          decide
      · rcases List.mem_flatten.mp h with ⟨li, hli, hissli⟩
        rcases List.mem_map.mp hli with ⟨r, hr, rfl⟩
        unfold stepResults at hr
        rcases List.mem_map.mp hr with ⟨pr, hpr, rfl⟩
        have hmem2 : pr.2 ∈ (stepResults ⟨true, st, 3, 50⟩ pidx steps).map (fun r => r.1) :=
          snd_mem_of_mem_enum hpr
        rcases List.mem_map.mp hmem2 with ⟨r1, hr1, hpr2⟩
        unfold stepResults at hr1
        rcases List.mem_map.mp hr1 with ⟨pq, hpq, rfl⟩
        rcases step_shape pq.2 with ⟨kvs0, hk⟩ | hno
        · have hout : pr.2 = .obj (stepOutKvs ⟨true, st, 3, 50⟩ (seqPath pq.1) kvs0) := by
            rw [← hpr2, hk, process_step_obj_fst]
          rw [hout] at hissli
          exact no_fix_codes_of_inv st pidx pr.1 _
            (stepOut_main st (seqPath pq.1) kvs0).1 iss hissli
        · have h1 : pr.2 = pq.2 := by
            rw [← hpr2]
            exact (process_step_not_obj ⟨true, st, 3, 50⟩ pidx pq.1 pq.2 hno).1
          have h2 := (process_step_not_obj ⟨true, st, 3, 50⟩ pidx pr.1 pr.2
            (by rw [h1]; exact hno)).2
          rw [h2] at hissli
          simp at hissli
          rw [hissli]
          simp [errI, FIX_CODES]
  | null =>
    have hsan : (validate_plan plan pidx true st 3 50).sanitized = plan := by
      unfold validate_plan
      rw [hseq]
    rw [hsan] at hiss
    unfold validate_plan at hiss
    rw [hseq] at hiss
    simp only [] at hiss
    rcases List.mem_append.mp hiss with h | h
    · rw [taskIssues_code plan iss h]
      decide
    · simp at h
      rw [h]
      decide
  | bool b =>
    have hsan : (validate_plan plan pidx true st 3 50).sanitized = plan := by
      unfold validate_plan
      rw [hseq]
    rw [hsan] at hiss
    unfold validate_plan at hiss
    rw [hseq] at hiss
    simp only [] at hiss
    rcases List.mem_append.mp hiss with h | h
    · rw [taskIssues_code plan iss h]
      decide
    · simp at h
      rw [h]
      decide
  | int n =>
    have hsan : (validate_plan plan pidx true st 3 50).sanitized = plan := by
      unfold validate_plan
      rw [hseq]
    rw [hsan] at hiss
    unfold validate_plan at hiss
    rw [hseq] at hiss
    simp only [] at hiss
    rcases List.mem_append.mp hiss with h | h
    · rw [taskIssues_code plan iss h]
      decide
    · simp at h
      rw [h]
      decide
  | float q =>
    have hsan : (validate_plan plan pidx true st 3 50).sanitized = plan := by
      unfold validate_plan
      rw [hseq]
    rw [hsan] at hiss
    unfold validate_plan at hiss
    rw [hseq] at hiss
    simp only [] at hiss
    rcases List.mem_append.mp hiss with h | h
    · rw [taskIssues_code plan iss h]
      decide
    · simp at h
      rw [h]
      decide
  | nan =>
    have hsan : (validate_plan plan pidx true st 3 50).sanitized = plan := by
      unfold validate_plan
      rw [hseq]
    rw [hsan] at hiss
    unfold validate_plan at hiss
    rw [hseq] at hiss
    simp only [] at hiss
    rcases List.mem_append.mp hiss with h | h
    · rw [taskIssues_code plan iss h]
      decide
    · simp at h
      rw [h]
      decide
  | str s =>
    have hsan : (validate_plan plan pidx true st 3 50).sanitized = plan := by
      unfold validate_plan
      rw [hseq]
    rw [hsan] at hiss
    unfold validate_plan at hiss
    rw [hseq] at hiss
    simp only [] at hiss
    rcases List.mem_append.mp hiss with h | h
    · rw [taskIssues_code plan iss h]
      decide
    · simp at h
      rw [h]
      decide
  | obj o =>
    have hsan : (validate_plan plan pidx true st 3 50).sanitized = plan := by
      unfold validate_plan
      rw [hseq]
    rw [hsan] at hiss
    unfold validate_plan at hiss
    rw [hseq] at hiss
    simp only [] at hiss
    rcases List.mem_append.mp hiss with h | h
    · rw [taskIssues_code plan iss h]
      decide
    · simp at h
      rw [h]
      decide

theorem vm_exclusivity_sanitized_witness :
    ¬(eps9 < |([(mkRat 1 10000000000 : ℚ), 0, 0, 0, 0, 0].getD 0 0)| ∧
      eps9 < |([(1 : ℚ), 0, 0, 0, 0, 0].getD 0 0)|) :=
  vm_exclusivity_sanitized tinyVPlan [] false _ rfl _ (List.mem_singleton.mpr rfl) _ rfl
    [(mkRat 1 10000000000 : ℚ), 0, 0, 0, 0, 0] [(1 : ℚ), 0, 0, 0, 0, 0] rfl rfl 0

theorem clamp_bounds_no_issue_witness :
    |([(0 : ℚ), 0, 0, 0, 0, 0].getD 0 0)| ≤ 3 ∧
    |([(0 : ℚ), 0, 0, 0, 0, 0].getD 0 0)| ≤ 50 :=
  (clamp_bounds_no_issue zeroPlaceBadFramePlan [] false).1 _ rfl _
    (List.mem_singleton.mpr rfl) _ rfl
    [(0 : ℚ), 0, 0, 0, 0, 0] [(0 : ℚ), 0, 0, 0, 0, 0] rfl rfl 0

theorem revalidation_no_fix_codes_witness :
    (errI "POINT_ID_INVALID_FOR_OBJECT" "actor_point=5 not in o.contact_point ids."
      "sequence[0].actor_point").code ∉ FIX_CODES :=
  revalidation_no_fix_codes graspWorldPlan graspWorldIdx false _ (List.mem_singleton.mpr rfl)

/-- C4 (amended): the all-zero degeneracy policy.  With both local vectors
entirely below `1e-12` and the normalized subtask in the fill set
`{move_to_pose, place, move_by_displacement}`: under auto-fix the linear-Z
component `V[2]` is set to `1.0` with WARN `ZERO_STEP_FILLED`, but only when
the step's frame normalized successfully (an invalid frame silently skips the
fill); without auto-fix the ERROR `ZERO_STEP_NOT_ALLOWED` is fatal.  For any
other subtask the block does nothing; the `ZERO_STEP` advisory is what the
V/M phase emits for all-zero vectors. -/
theorem zero_step_degeneracy (cfg : Cfg) (p st1 : String) (fr : Option String)
    (v m : List ℚ) (kvs : Kvs) :
    (vmAllZero (some v) (some m) = true → st1 ∈ ZERO_FILL_SUBTASKS →
      ((∀ f, fr = some f → f ∈ (["FUNCTIONAL", "CONTACT", "WORLD"] : List String) →
        cfg.auto_fix = true →
        phase_zero cfg p (some st1) fr (some v) (some m) kvs =
          (setKv (setKv kvs "V" (jnumList (v.set 2 1))) "M" (jnumList m),
           [warnI "ZERO_STEP_FILLED"
             ("Filled all-zero step with default approach Vz=+1.0 in frame=" ++ f) p],
           false)) ∧
       (cfg.auto_fix = false →
        phase_zero cfg p (some st1) fr (some v) (some m) kvs =
          (kvs,
           [errI "ZERO_STEP_NOT_ALLOWED" "All-zero V/M not allowed for this subtask." p],
           true)))) ∧
    (st1 ∉ ZERO_FILL_SUBTASKS →
      phase_zero cfg p (some st1) fr (some v) (some m) kvs = (kvs, [], false)) ∧
    (nzCount v = 0 → nzCount m = 0 →
      zero_dense_warns p v m =
        [warnI "ZERO_STEP" "V and M are all zeros (step may be redundant)." p]) := by
  refine ⟨fun hz hst => ⟨?_, ?_⟩, ?_, ?_⟩
  · intro f hf hfmem ha
    subst hf
    simp only [phase_zero]
    rw [hz, decide_eq_true hst]
    simp only [Bool.and_self, if_true, ha]
    rw [if_pos hfmem]
  · intro ha
    simp only [phase_zero]
    rw [hz, decide_eq_true hst]
    simp only [Bool.and_self, if_true, ha, Bool.false_eq_true, if_false]
  · intro hst
    simp only [phase_zero]
    rw [decide_eq_false hst, Bool.and_false]
    simp
  · intro hv hm
    unfold zero_dense_warns
    rw [if_pos ⟨hv, hm⟩]

theorem zero_step_degeneracy_witness :
    phase_zero ⟨true, false, 3, 50⟩ "sequence[0]" (some "place") (some "WORLD")
      (some [0, 0, 0, 0, 0, 0]) (some [0, 0, 0, 0, 0, 0]) [] =
      (setKv (setKv [] "V" (jnumList (([0, 0, 0, 0, 0, 0] : List ℚ).set 2 1))) "M"
        (jnumList [0, 0, 0, 0, 0, 0]),
       [warnI "ZERO_STEP_FILLED"
         "Filled all-zero step with default approach Vz=+1.0 in frame=WORLD" "sequence[0]"],
       false) :=
  ((zero_step_degeneracy ⟨true, false, 3, 50⟩ "sequence[0]" "place" (some "WORLD")
      [0, 0, 0, 0, 0, 0] [0, 0, 0, 0, 0, 0] []).1 (by decide) (by decide)).1
    "WORLD" rfl (by decide) rfl

/-- C5 (amended): in CONTACT (resp. FUNCTIONAL) frame, when the associated
object is a key of the point index and its expected-kind id set is
*nonempty*, an integer point id absent from that set is the fatal ERROR
`POINT_ID_INVALID_FOR_OBJECT` (the `true` component is the step's fatal-error
contribution, which makes the result's `ok` false); with an empty set the
check is skipped entirely. -/
theorem point_id_object_check (pidx : PointIndex) (uC uF uA : List ℤ)
    (f ek : String) (p fld : String) (kvs : Kvs) (o : String) (pid : ℤ)
    (hf : (f = "CONTACT" ∧ ek = "contact_point") ∨
      (f = "FUNCTIONAL" ∧ ek = "functional_point"))
    (hpid : pidOf (getKv? kvs fld) = some pid)
    (ho : idxHas pidx o = true)
    (hne : kindGet (idxGet pidx o) ek ≠ [])
    (hmem : pid ∉ kindGet (idxGet pidx o) ek) :
    check_id pidx uC uF uA (some f) (expected_kind_of (some f)) p fld kvs (some o) =
      ([errI "POINT_ID_INVALID_FOR_OBJECT"
         (fld ++ "=" ++ intToString pid ++ " not in " ++ o ++ "." ++ ek ++ " ids.")
         (p ++ "." ++ fld)],
       true) := by
  have hek : expected_kind_of (some f) = some ek := by
    rcases hf with ⟨rfl, rfl⟩ | ⟨rfl, rfl⟩ <;> rfl
  have hfW : ¬(some f = some "WORLD") := by
    rcases hf with ⟨rfl, _⟩ | ⟨rfl, _⟩ <;> decide
  rw [hek]
  unfold check_id
  simp only [hpid]
  rw [if_neg hfW]
  simp only [ho, if_true]
  rw [if_pos ⟨hne, hmem⟩]

theorem point_id_object_check_witness :
    check_id funcIdx [0] [0, 1, 2] [0, 1, 2] (some "FUNCTIONAL")
      (expected_kind_of (some "FUNCTIONAL")) "sequence[0]" "actor_point"
      [("actor_point", .int 7)] (some "o") =
      ([errI "POINT_ID_INVALID_FOR_OBJECT"
         "actor_point=7 not in o.functional_point ids." "sequence[0].actor_point"],
       true) :=
  point_id_object_check funcIdx [0] [0, 1, 2] [0, 1, 2] "FUNCTIONAL" "functional_point"
    "sequence[0]" "actor_point" [("actor_point", .int 7)] "o" 7
    (Or.inr ⟨rfl, rfl⟩) rfl (by decide) (by decide) (by decide)

